import Mathlib

/-!
# RemoveData (internal/operator/task/rmdata.go)

A shallow embedding of the task that starts the removal of a cluster's data:
`PatchpgtaskDeleteDataStatus` (the deletion-started marker), `RemoveData`
(marker, cluster lookup, job fields, job creation, event) and
`publishDeleteCluster`.

Calls that leave the process (the REST patch, the cluster lookup, the job
creation, the event publication, the log) are recorded in a trace, in program
order; what they answer is read from an environment `Env`.  Code the file uses
but does not define (label constants, the job template, the random suffix,
the security-context helper, the JSON layout of a `Pgtask`) is a field of the
environment as well, so every theorem holds for any value of it.
-/

namespace Rmdata

/-! ## Go string maps -/

/-- Entries of a Go `map[string]string`, in some enumeration order. -/
abbrev Entries := List (String × String)

/-- Value stored under `k`, if any. -/
def Entries.find (k : String) : Entries → Option String
  | [] => none
  | (l, v) :: es => if l = k then some v else Entries.find k es

/-- Assignment `m[k] = v` on a map that is not nil: the entry is replaced where
the key is present and added otherwise. -/
def Entries.set (k v : String) : Entries → Entries
  | [] => [(k, v)]
  | (l, w) :: es => if l = k then (l, v) :: es else (l, w) :: Entries.set k v es

/-- Keys of the entries. -/
def Entries.keys (es : Entries) : List String := es.map Prod.fst

/-- A Go `map[string]string`; `none` is the nil map. -/
abbrev GoMap := Option Entries

/-- Index expression `m[k]`: the zero value `""` on a nil map or a missing key. -/
def GoMap.index (m : GoMap) (k : String) : String :=
  match m with
  | none => ""
  | some es => (Entries.find k es).getD ""

/-- Assignment `m[k] = v`; `none` is the run-time panic of an assignment to an
entry of a nil map. -/
def GoMap.assign (m : GoMap) (k v : String) : Option GoMap :=
  match m with
  | none => none
  | some es => some (some (Entries.set k v es))

/-! ## JSON documents and merge patches -/

mutual
/-- JSON values. -/
inductive Json where
  | null
  | bool (b : Bool)
  | num (n : Int)
  | str (s : String)
  | arr (xs : JsonList)
  | obj (ms : Members)
  deriving DecidableEq
/-- Elements of a JSON array. -/
inductive JsonList where
  | nil
  | cons (x : Json) (xs : JsonList)
  deriving DecidableEq
/-- Members of a JSON object. -/
inductive Members where
  | nil
  | cons (k : String) (v : Json) (ms : Members)
  deriving DecidableEq
end

/-- Value of member `k`. -/
def Members.lookup (k : String) : Members → Option Json
  | .nil => none
  | .cons l v ms => if l = k then some v else Members.lookup k ms

/-- Whether a member named `k` is present. -/
def Members.hasKey (k : String) : Members → Bool
  | .nil => false
  | .cons l _ ms => if l = k then true else Members.hasKey k ms

/-- Store `v` under `k`: replaced where present, added otherwise. -/
def Members.set (k : String) (v : Json) : Members → Members
  | .nil => .cons k v .nil
  | .cons l w ms => if l = k then .cons l v ms else .cons l w (Members.set k v ms)

/-- Remove member `k`. -/
def Members.erase (k : String) : Members → Members
  | .nil => .nil
  | .cons l w ms => if l = k then Members.erase k ms else .cons l w (Members.erase k ms)

mutual
/-- No object of the document has two members of the same name. -/
def Json.wf : Json → Bool
  | .arr xs => JsonList.wf xs
  | .obj ms => Members.wf ms
  | _ => true
/-- Every element is well formed. -/
def JsonList.wf : JsonList → Bool
  | .nil => true
  | .cons x xs => Json.wf x && JsonList.wf xs
/-- Member names are pairwise different and every value is well formed. -/
def Members.wf : Members → Bool
  | .nil => true
  | .cons k v ms => !(Members.hasKey k ms) && Json.wf v && Members.wf ms
end

/-- Second loop of `getDiff` in the merge-patch library (package `jsonpatch`,
outside the repository): every key of `a` that `b` does not have is recorded
as `null`. -/
def deletedLoop (b : Members) : Members → Members → Members
  | .nil, into => into
  | .cons key _ rest, into =>
    deletedLoop b rest (if Members.hasKey key b then into else Members.set key .null into)

/-- First loop of `getDiff` in the merge-patch library, over the members of `b`:
a key `a` lacks is added; two objects are diffed recursively and kept when
the difference is not empty; any other pair is kept when the values differ. -/
def getDiffLoop (a : Members) : Members → Members → Members
  | .nil, into => into
  | .cons key bv rest, into =>
    match Members.lookup key a, bv with
    | none, _ => getDiffLoop a rest (Members.set key bv into)
    | some (.obj ao), .obj bt =>
      let dst := deletedLoop bt ao (getDiffLoop ao bt .nil)
      getDiffLoop a rest (if dst = .nil then into else Members.set key (.obj dst) into)
    | some av, _ => getDiffLoop a rest (if av = bv then into else Members.set key bv into)

/-- The function `getDiff(a, b)` of the merge-patch library: the recursive
difference between two objects. -/
def getDiff (a b : Members) : Members :=
  deletedLoop b a (getDiffLoop a b .nil)

/-- The call `jsonpatch.CreateMergePatch(originalJSON, modifiedJSON)`: the merge
patch that turns the first document into the second; both must be objects. -/
def CreateMergePatch : Json → Json → Except String Json
  | .obj a, .obj b => .ok (.obj (getDiff a b))
  | _, _ => .error "Invalid JSON Document"

/-- Members of an object; a value that is not an object has none. -/
def Json.members : Json → Members
  | .obj ms => ms
  | _ => .nil

mutual
/-- Application of a merge patch to a target document (RFC 7386), the content
type `types.MergePatchType` the patch request is sent with: an object patch
is merged member by member into the target, taken as the empty object when
it is not an object; any other patch replaces the target. -/
def Json.mergePatch (target : Json) : Json → Json
  | .obj ps => .obj (Members.mergeInto target.members ps)
  | .null => .null
  | .bool b => .bool b
  | .num n => .num n
  | .str s => .str s
  | .arr xs => .arr xs
/-- Members of the patch applied one by one: `null` removes the member, any
other value is merged into the present one. -/
def Members.mergeInto (ts : Members) : Members → Members
  | .nil => ts
  | .cons k .null rest => Members.mergeInto (Members.erase k ts) rest
  | .cons k v rest =>
    Members.mergeInto
      (Members.set k (Json.mergePatch ((Members.lookup k ts).getD .null) v) ts) rest
end

/-- Value found by following member names from the root of the document. -/
def Json.getPath : Json → List String → Option Json
  | j, [] => some j
  | .obj ms, k :: p =>
    match Members.lookup k ms with
    | some v => Json.getPath v p
    | none => none
  | _, _ :: _ => none

/-- A Go string map as a JSON object, each value a JSON string. -/
def encodeEntries : Entries → Members
  | [] => .nil
  | (k, v) :: es => .cons k (.str v) (encodeEntries es)

/-- A `map[string]string` as `json.Marshal` writes it: `null` for the nil map. -/
def marshalMap : GoMap → Json
  | none => .null
  | some es => .obj (encodeEntries es)

/-! ## Data model -/

/-- Storage specification carried by a task or a cluster; the code reads it
only through `GetSupplementalGroups`. -/
structure PgStorageSpec where
  SupplementalGroups : String
  deriving DecidableEq

/-- Object metadata; the code reads the labels. -/
structure ObjectMeta where
  Labels : GoMap
  deriving DecidableEq

/-- Specification of a task (`crv1.PgtaskSpec`): the fields the code reads. -/
structure PgtaskSpec where
  Name : String
  StorageSpec : PgStorageSpec
  Parameters : GoMap
  deriving DecidableEq

/-- A task (`crv1.Pgtask`). -/
structure Pgtask where
  ObjectMeta : Rmdata.ObjectMeta
  Spec : PgtaskSpec
  deriving DecidableEq

/-- Modelled from the spec: the type `crv1.PgclusterSpec` is not part of the
sources; a cluster descriptor has an identity (name, namespace) and defaults
(image prefix, storage spec with supplemental group list). -/
structure PgclusterSpec where
  Name : String
  Namespace : String
  PGOImagePrefix : String
  StorageSpec : PgStorageSpec
  deriving DecidableEq

/-- A cluster (`crv1.Pgcluster`). -/
structure Pgcluster where
  Spec : PgclusterSpec
  deriving DecidableEq

/-- Fields handed to the job template. -/
structure rmdatajobTemplateFields where
  JobName : String
  Name : String
  ClusterName : String
  ClusterPGHAScope : String
  ReplicaName : String
  PGOImagePrefix : String
  PGOImageTag : String
  SecurityContext : String
  RemoveData : String
  RemoveBackup : String
  IsBackup : String
  IsReplica : String
  deriving DecidableEq

/-- A container of the job's pod template. -/
structure Container where
  Name : String
  Image : String
  deriving DecidableEq

/-- A batch job (`v1batch.Job`): its name and `Spec.Template.Spec.Containers`. -/
structure Job where
  Name : String
  Containers : List Container
  deriving DecidableEq

/-- Header of an event (`events.EventHeader`). -/
structure EventHeader where
  Namespace : String
  Username : String
  Topic : List String
  Timestamp : Nat
  EventType : String
  deriving DecidableEq

/-- The event of a cluster deletion (`events.EventDeleteClusterFormat`). -/
structure EventDeleteClusterFormat where
  EventHeader : Rmdata.EventHeader
  Clustername : String
  deriving DecidableEq

/-- Constants of package `config` the code names; their values are declared
outside the sources at hand. -/
structure Config where
  LABEL_PG_CLUSTER : String
  LABEL_PGHA_SCOPE : String
  LABEL_REPLICA_NAME : String
  LABEL_IS_REPLICA : String
  LABEL_IS_BACKUP : String
  LABEL_DELETE_DATA : String
  LABEL_DELETE_BACKUPS : String
  LABEL_DELETE_DATA_STARTED : String
  LABEL_PG_CLUSTER_IDENTIFIER : String
  LABEL_PGOUSER : String
  CONTAINER_IMAGE_PGO_RMDATA : String

/-- Constants of package `events` the code names. -/
structure Events where
  EventTopicCluster : String
  EventDeleteCluster : String

/-- Process-wide operator configuration (`operator.Pgo.Pgo`). -/
structure PgoConfig where
  PGOImagePrefix : String
  PGOImageTag : String

/-- JSON layout of a `Pgtask`, whose declaration (with its field tags) is not
part of the sources: the name of the member holding the spec, the name of the
member of the spec holding the parameters, and the remaining members of the
two objects, which are written from parts of the task other than the
parameters (fields of the task that the code never reads are constants of
these two functions). -/
structure PgtaskLayout where
  specTag : String
  parametersTag : String
  top : ObjectMeta → Members
  spec : String → PgStorageSpec → Members

/-- Members of the marshalled task: those of the layout, with the spec, which
holds the parameters next to its other members. -/
def PgtaskLayout.members (L : PgtaskLayout) (t : Pgtask) : Members :=
  Members.set L.specTag
    (.obj (Members.set L.parametersTag (marshalMap t.Spec.Parameters)
      (L.spec t.Spec.Name t.Spec.StorageSpec)))
    (L.top t.ObjectMeta)

/-- The call `json.Marshal` on a task.  On this type (strings and string maps)
the encoder has no failing case, so the two `err != nil` branches that follow
the calls in `PatchpgtaskDeleteDataStatus` are never taken. -/
def PgtaskLayout.Marshal (L : PgtaskLayout) (t : Pgtask) : Json :=
  .obj (L.members t)

/-- One observable step of a run, in program order. -/
inductive Effect where
  /-- The merge-patch request on the task resource and the error it returned. -/
  | patch (ns name : String) (body : Json) (err : Option String)
  /-- The lookup `kubeapi.Getpgcluster` and whether it returned a cluster. -/
  | getpgcluster (name ns : String) (found : Bool)
  /-- The rendered template written to standard output under `CRUNCHY_DEBUG`. -/
  | stdout (doc : String)
  /-- The request `Jobs(namespace).Create` and the error it returned. -/
  | createJob (ns : String) (job : Job) (err : Option String)
  /-- The call `events.Publish` and the error it returned. -/
  | publish (f : EventDeleteClusterFormat) (err : Option String)
  | logError (msg : String)
  | logDebug (msg : String)
  /-- The debug line that prints the patch. -/
  | logPatch (body : Json)
  deriving DecidableEq

/-- Everything outside the file that a run reads or calls. -/
structure Env where
  config : Config
  events : Events
  Pgo : PgoConfig
  CRUNCHY_DEBUG : Bool
  layout : PgtaskLayout
  /-- Value of `time.Now().Format(time.RFC3339)` when the marker is set. -/
  now : String
  /-- Value of `time.Now()` when the event is built. -/
  eventNow : Nat
  /-- REST merge patch of the task `name` in `ns`: the error returned, if any. -/
  Patch : String → String → Json → Option String
  /-- Lookup `kubeapi.Getpgcluster` by name and namespace. -/
  Getpgcluster : String → String → Except String Pgcluster
  /-- Random string of the given length (`util.RandStringBytesRmndr`). -/
  RandStringBytesRmndr : Nat → String
  /-- Method `GetSupplementalGroups` of a storage spec. -/
  GetSupplementalGroups : PgStorageSpec → List Int
  /-- Helper `operator.GetPodSecurityContext`. -/
  GetPodSecurityContext : List Int → String
  /-- Execution of `config.RmdatajobTemplate` on the fields. -/
  RmdatajobTemplate : rmdatajobTemplateFields → Except String String
  /-- Call `json.Unmarshal` of the rendered document into a `Job`. -/
  Unmarshal : String → Except String Job
  /-- Helper `operator.SetContainerImageOverride` on one container. -/
  SetContainerImageOverride : String → Container → Container
  /-- Request `clientset.BatchV1().Jobs(ns).Create(job)`. -/
  CreateJob : String → Job → Except String Job
  /-- Call `events.Publish`: the error returned, if any. -/
  Publish : EventDeleteClusterFormat → Option String

/-- Modelled from the spec: `util.GetValueOrDefault` is not part of the sources;
the image prefix is "the cluster's own override if non-empty, else a
process-wide default". -/
def GetValueOrDefault (value defaultValue : String) : String :=
  if value = "" then defaultValue else value

/-- The task with the deletion-started marker set in its parameters `es`. -/
def markedTask (E : Env) (task : Pgtask) (es : Entries) : Pgtask :=
  { task with
    Spec :=
      { task.Spec with
        Parameters := some (Entries.set E.config.LABEL_DELETE_DATA_STARTED E.now es) } }

/-- The merge patch between the task as received and the task with the marker. -/
def markerPatch (E : Env) (task : Pgtask) (es : Entries) : Json :=
  .obj (getDiff (E.layout.members task) (E.layout.members (markedTask E task es)))

/-- The patch that holds the marker and nothing else. -/
def markerOnlyPatch (E : Env) : Json :=
  .obj (.cons E.layout.specTag
    (.obj (.cons E.layout.parametersTag
      (.obj (.cons E.config.LABEL_DELETE_DATA_STARTED (.str E.now) .nil)) .nil)) .nil)

/-- Path of the marker in the marshalled task. -/
def markerPath (E : Env) : List String :=
  [E.layout.specTag, E.layout.parametersTag, E.config.LABEL_DELETE_DATA_STARTED]

/-! ## The program -/

/-- What `PatchpgtaskDeleteDataStatus` leaves behind: the task object of the
caller (it is passed by pointer), the calls made, and the returned error. -/
structure PatchOutcome where
  task : Pgtask
  trace : List Effect
  err : Option String
  deriving DecidableEq

/-- The function `PatchpgtaskDeleteDataStatus`; `none` is the panic of the
assignment when the parameter map is nil. -/
def PatchpgtaskDeleteDataStatus (E : Env) (oldCrd : Pgtask) (ns : String) :
    Option PatchOutcome :=
  let oldData := E.layout.Marshal oldCrd
  -- change it
  match oldCrd.Spec.Parameters.assign E.config.LABEL_DELETE_DATA_STARTED E.now with
  | none => none
  | some params =>
    let oldCrd : Pgtask := { oldCrd with Spec := { oldCrd.Spec with Parameters := params } }
    -- create the patch
    let newData := E.layout.Marshal oldCrd
    match CreateMergePatch oldData newData with
    | .error err => some ⟨oldCrd, [], some err⟩
    | .ok patchBytes =>
      -- apply patch
      let err6 := E.Patch ns oldCrd.Spec.Name patchBytes
      some ⟨oldCrd, [.logPatch patchBytes, .patch ns oldCrd.Spec.Name patchBytes err6], err6⟩

/-- The function `publishDeleteCluster`: the event is published and a failure
is logged; nothing is returned. -/
def publishDeleteCluster (E : Env) (clusterName _identifier username ns : String) :
    List Effect :=
  let topics := [E.events.EventTopicCluster]
  let f : EventDeleteClusterFormat :=
    { EventHeader :=
        { Namespace := ns
          Username := username
          Topic := topics
          Timestamp := E.eventNow
          EventType := E.events.EventDeleteCluster }
      Clustername := clusterName }
  match E.Publish f with
  | some err => [.publish f (some err), .logError err]
  | none => [.publish f none]

/-- The statement at which a run of `RemoveData` ends. -/
inductive Exit where
  /-- Panic: assignment to an entry of a nil parameter map. -/
  | panicNilMap
  /-- Return after `PatchpgtaskDeleteDataStatus` gave an error. -/
  | markerFailed
  /-- Return on an empty cluster name. -/
  | emptyClusterName
  /-- Return after `Getpgcluster` gave an error. -/
  | lookupFailed
  /-- Return after the template failed to execute. -/
  | templateFailed
  /-- Return after the document failed to unmarshal into a job. -/
  | unmarshalFailed
  /-- Panic: `Containers[0]` on a job without container. -/
  | panicNoContainer
  /-- Return after the job creation gave an error. -/
  | createFailed
  /-- End of the function. -/
  | done
  deriving DecidableEq

/-- A run of `RemoveData`: the caller's task afterwards, the calls made, the
value of the local `jobFields` once it is built, and where the run ended. -/
structure Run where
  task : Pgtask
  trace : List Effect
  jobFields : Option rmdatajobTemplateFields
  exit : Exit
  deriving DecidableEq

/-- The function `RemoveData`. -/
def RemoveData (E : Env) (ns : String) (task : Pgtask) : Run :=
  -- create marker (clustername, namespace)
  match PatchpgtaskDeleteDataStatus E task ns with
  | none => ⟨task, [], none, .panicNilMap⟩
  | some p =>
    let task := p.task
    match p.err with
    | some _ =>
      ⟨task, p.trace ++ [.logError ("could not set delete data started marker for task "
          ++ task.Spec.Name ++ " cluster "
          ++ task.Spec.Parameters.index E.config.LABEL_PG_CLUSTER)], none, .markerFailed⟩
    | none =>
      -- create the Job to remove the data
      let clusterName := task.Spec.Parameters.index E.config.LABEL_PG_CLUSTER
      let clusterPGHAScope := task.Spec.Parameters.index E.config.LABEL_PGHA_SCOPE
      let replicaName := task.Spec.Parameters.index E.config.LABEL_REPLICA_NAME
      let isReplica := task.Spec.Parameters.index E.config.LABEL_IS_REPLICA
      let isBackup := task.Spec.Parameters.index E.config.LABEL_IS_BACKUP
      let removeData := task.Spec.Parameters.index E.config.LABEL_DELETE_DATA
      let removeBackup := task.Spec.Parameters.index E.config.LABEL_DELETE_BACKUPS
      -- make sure the provided clustername is not empty
      if clusterName = "" then
        ⟨task, p.trace ++ [.logError "unable to create pgdump job, clustername is empty."],
          none, .emptyClusterName⟩
      else
        -- if the clustername is not empty, get the pgcluster
        match E.Getpgcluster clusterName ns with
        | .error err =>
          ⟨task, p.trace ++ [.getpgcluster clusterName ns false, .logError err],
            none, .lookupFailed⟩
        | .ok cluster =>
          let jobName := clusterName ++ "-rmdata-" ++ E.RandStringBytesRmndr 4
          let jobFields : rmdatajobTemplateFields :=
            { JobName := jobName
              Name := task.Spec.Name
              ClusterName := clusterName
              ClusterPGHAScope := clusterPGHAScope
              ReplicaName := replicaName
              RemoveData := removeData
              RemoveBackup := removeBackup
              IsReplica := isReplica
              IsBackup := isBackup
              PGOImagePrefix :=
                GetValueOrDefault cluster.Spec.PGOImagePrefix E.Pgo.PGOImagePrefix
              PGOImageTag := E.Pgo.PGOImageTag
              SecurityContext :=
                E.GetPodSecurityContext (E.GetSupplementalGroups task.Spec.StorageSpec) }
          let tr := p.trace ++ [.getpgcluster clusterName ns true,
            .logDebug ("creating rmdata job " ++ jobName ++ " for cluster "
              ++ task.Spec.Name ++ " ")]
          match E.RmdatajobTemplate jobFields with
          | .error err => ⟨task, tr ++ [.logError err], some jobFields, .templateFailed⟩
          | .ok doc2 =>
            let tr := if E.CRUNCHY_DEBUG then tr ++ [.stdout doc2] else tr
            match E.Unmarshal doc2 with
            | .error err =>
              ⟨task, tr ++ [.logError ("error unmarshalling json into Job " ++ err)],
                some jobFields, .unmarshalFailed⟩
            | .ok newjob =>
              -- set the container image to an override value, if one exists
              match newjob.Containers with
              | [] => ⟨task, tr, some jobFields, .panicNoContainer⟩
              | c :: cs =>
                let newjob : Job :=
                  { newjob with
                    Containers :=
                      E.SetContainerImageOverride E.config.CONTAINER_IMAGE_PGO_RMDATA c :: cs }
                match E.CreateJob ns newjob with
                | .error err =>
                  ⟨task, tr ++ [.createJob ns newjob (some err),
                    .logError ("got error when creating rmdata job " ++ newjob.Name)],
                    some jobFields, .createFailed⟩
                | .ok j =>
                  ⟨task, tr ++ [.createJob ns newjob none,
                      .logDebug ("successfully created rmdata job " ++ j.Name)]
                    ++ publishDeleteCluster E
                        (task.Spec.Parameters.index E.config.LABEL_PG_CLUSTER)
                        (task.ObjectMeta.Labels.index E.config.LABEL_PG_CLUSTER_IDENTIFIER)
                        (task.ObjectMeta.Labels.index E.config.LABEL_PGOUSER) ns,
                    some jobFields, .done⟩

/-! ## Reading a trace -/

/-- A marker patch request. -/
def Effect.isPatch : Effect → Bool
  | .patch _ _ _ _ => true
  | _ => false

/-- A marker patch request that was accepted. -/
def Effect.isPatchOk : Effect → Bool
  | .patch _ _ _ none => true
  | _ => false

/-- A job creation request. -/
def Effect.isCreateJob : Effect → Bool
  | .createJob _ _ _ => true
  | _ => false

/-- A job creation request that was accepted. -/
def Effect.isCreateJobOk : Effect → Bool
  | .createJob _ _ none => true
  | _ => false

/-- A cluster lookup. -/
def Effect.isLookup : Effect → Bool
  | .getpgcluster _ _ _ => true
  | _ => false

/-- An event handed to the publisher. -/
def Effect.isPublish : Effect → Bool
  | .publish _ _ => true
  | _ => false

/-- Number of marker patch requests sent. -/
def markerWrites (tr : List Effect) : Nat := tr.countP Effect.isPatch

/-- Whether a marker patch request was sent and accepted. -/
def markerWritten (tr : List Effect) : Bool := tr.any Effect.isPatchOk

/-- Number of job creation requests sent. -/
def jobSubmissions (tr : List Effect) : Nat := tr.countP Effect.isCreateJob

/-- Whether a job creation request was sent and accepted. -/
def jobSubmitted (tr : List Effect) : Bool := tr.any Effect.isCreateJobOk

/-- Number of cluster lookups. -/
def lookups (tr : List Effect) : Nat := tr.countP Effect.isLookup

/-- Number of events handed to the publisher. -/
def publishes (tr : List Effect) : Nat := tr.countP Effect.isPublish

/-- The requests of a trace that change the cluster: marker patches and job
creations, with their answers. -/
def requests (tr : List Effect) : List Effect :=
  tr.filter (fun e => e.isPatch || e.isCreateJob)

/-- The stored document after the patches of a trace that were accepted, applied
in order. -/
def storedAfter (stored : Json) : List Effect → Json
  | [] => stored
  | .patch _ _ body none :: tr => storedAfter (Json.mergePatch stored body) tr
  | _ :: tr => storedAfter stored tr

/-! ## Sample values -/

/-- Sample values for the constants of package `config`. -/
def sampleConfig : Config :=
  { LABEL_PG_CLUSTER := "pg-cluster"
    LABEL_PGHA_SCOPE := "crunchy-pgha-scope"
    LABEL_REPLICA_NAME := "replica-name"
    LABEL_IS_REPLICA := "is-replica"
    LABEL_IS_BACKUP := "is-backup"
    LABEL_DELETE_DATA := "delete-data"
    LABEL_DELETE_BACKUPS := "delete-backups"
    LABEL_DELETE_DATA_STARTED := "delete-data-started"
    LABEL_PG_CLUSTER_IDENTIFIER := "pg-cluster-id"
    LABEL_PGOUSER := "pgouser"
    CONTAINER_IMAGE_PGO_RMDATA := "PGO_IMAGE_RMDATA" }

/-- Sample layout: metadata with the labels next to the spec; name and storage
spec next to the parameters. -/
def sampleLayout : PgtaskLayout :=
  { specTag := "spec"
    parametersTag := "parameters"
    top := fun m => .cons "metadata" (.obj (.cons "labels" (marshalMap m.Labels) .nil)) .nil
    spec := fun name st =>
      .cons "name" (.str name)
        (.cons "storagespec"
          (.obj (.cons "supplementalgroups" (.str st.SupplementalGroups) .nil)) .nil) }

/-- Sample reading of a storage spec that declares at most one supplemental
group, written in decimal. -/
def sampleGroups (st : PgStorageSpec) : List Int :=
  if st.SupplementalGroups = "" then []
  else [Int.ofNat (st.SupplementalGroups.data.foldl (fun n c => 10 * n + (c.toNat - 48)) 0)]

/-- Decimal digits of a number of at most `fuel` digits. -/
def sampleDigits : Nat → Nat → List Char
  | 0, _ => []
  | fuel + 1, n =>
    if n < 10 then [Char.ofNat (48 + n)]
    else sampleDigits fuel (n / 10) ++ [Char.ofNat (48 + n % 10)]

/-- Sample security context: the groups it was given, one after the other. -/
def sampleSecurityContext (gs : List Int) : String :=
  "supplementalGroups:" ++ String.join (gs.map (fun g => " " ++ String.mk (sampleDigits 20 g.toNat)))

/-- Sample cluster `mycluster`, with its own supplemental groups. -/
def sampleCluster : Pgcluster :=
  { Spec :=
      { Name := "mycluster"
        Namespace := "pgo"
        PGOImagePrefix := ""
        StorageSpec := { SupplementalGroups := "2002" } } }

/-- Sample environment in which every call succeeds: the cluster `mycluster`
exists, the template renders the job name, and the rendered document
unmarshals into a job of one container. -/
def sampleEnv : Env :=
  { config := sampleConfig
    events := { EventTopicCluster := "clustertopic", EventDeleteCluster := "DeleteCluster" }
    Pgo := { PGOImagePrefix := "crunchydata", PGOImageTag := "v1" }
    CRUNCHY_DEBUG := false
    layout := sampleLayout
    now := "2021-01-02T03:04:05Z"
    eventNow := 1609556645
    Patch := fun _ _ _ => none
    Getpgcluster := fun name _ =>
      if name = "mycluster" then .ok sampleCluster else .error "pgcluster not found"
    RandStringBytesRmndr := fun _ => "abcd"
    GetSupplementalGroups := sampleGroups
    GetPodSecurityContext := sampleSecurityContext
    RmdatajobTemplate := fun f => .ok f.JobName
    Unmarshal := fun doc => .ok { Name := doc, Containers := [{ Name := "rmdata", Image := "pgo-rmdata" }] }
    SetContainerImageOverride := fun _ c => c
    CreateJob := fun _ job => .ok job
    Publish := fun _ => none }

/-- The sample environment with a patch request that is refused. -/
def sampleEnvPatchRefused : Env :=
  { sampleEnv with Patch := fun _ _ _ => some "conflict" }

/-- The sample environment without any cluster. -/
def sampleEnvNoCluster : Env :=
  { sampleEnv with Getpgcluster := fun _ _ => .error "pgcluster not found" }

/-- The sample environment with a job template that fails to execute. -/
def sampleEnvTemplateFails : Env :=
  { sampleEnv with RmdatajobTemplate := fun _ => .error "template: no such field" }

/-- The sample environment with an event publisher that fails. -/
def sampleEnvPublishFails : Env :=
  { sampleEnv with Publish := fun _ => some "connection refused" }

/-- Sample task `t1` on the cluster `mycluster`. -/
def sampleTask : Pgtask :=
  { ObjectMeta := { Labels := some [("pgouser", "admin")] }
    Spec :=
      { Name := "t1"
        StorageSpec := { SupplementalGroups := "1001" }
        Parameters := some [("pg-cluster", "mycluster"), ("delete-data", "true"),
          ("delete-backups", "false")] } }

/-- Parameters of the sample task. -/
def sampleEntries : Entries :=
  [("pg-cluster", "mycluster"), ("delete-data", "true"), ("delete-backups", "false")]

/-- The marker patch of the sample task. -/
def sampleMarkerPatch : Json :=
  .obj (.cons "spec" (.obj (.cons "parameters"
    (.obj (.cons "delete-data-started" (.str "2021-01-02T03:04:05Z") .nil)) .nil)) .nil)

/-- What the marker function leaves when the patch of the sample task is
refused. -/
def sampleRefusedOutcome : PatchOutcome :=
  { task := markedTask sampleEnv sampleTask sampleEntries
    trace := [.logPatch sampleMarkerPatch,
      .patch "pgo" "t1" sampleMarkerPatch (some "conflict")]
    err := some "conflict" }

/-- Job fields built for the sample task in the sample environment. -/
def sampleFields : rmdatajobTemplateFields :=
  { JobName := "mycluster-rmdata-abcd"
    Name := "t1"
    ClusterName := "mycluster"
    ClusterPGHAScope := ""
    ReplicaName := ""
    PGOImagePrefix := "crunchydata"
    PGOImageTag := "v1"
    SecurityContext := "supplementalGroups: 1001"
    RemoveData := "true"
    RemoveBackup := "false"
    IsBackup := ""
    IsReplica := "" }

/-- Sample task that names no cluster. -/
def sampleTaskNoCluster : Pgtask :=
  { sampleTask with
    Spec := { sampleTask.Spec with Parameters := some [("delete-data", "true")] } }

/-! ## JSON members -/

theorem Members.lookup_set_self (k : String) (v : Json) :
    ∀ ms : Members, Members.lookup k (Members.set k v ms) = some v
  | .nil => by simp [Members.set, Members.lookup]
  | .cons l w ms => by
    by_cases h : l = k
    · simp [Members.set, Members.lookup, h]
    · simp [Members.set, Members.lookup, h, Members.lookup_set_self k v ms]

theorem Members.lookup_set_ne {k k2 : String} (v : Json) (h : k2 ≠ k) :
    ∀ ms : Members, Members.lookup k2 (Members.set k v ms) = Members.lookup k2 ms
  | .nil => by simp [Members.set, Members.lookup, Ne.symm h]
  | .cons l w ms => by
    by_cases hl : l = k
    · subst hl
      simp [Members.set, Members.lookup, Ne.symm h]
    · by_cases hl2 : l = k2
      · subst hl2
        simp [Members.set, Members.lookup, hl]
      · simp [Members.set, Members.lookup, hl, hl2, Members.lookup_set_ne v h ms]

theorem Members.hasKey_eq_isSome (k : String) :
    ∀ ms : Members, Members.hasKey k ms = (Members.lookup k ms).isSome
  | .nil => rfl
  | .cons l w ms => by
    by_cases h : l = k
    · simp [Members.hasKey, Members.lookup, h]
    · simp [Members.hasKey, Members.lookup, h, Members.hasKey_eq_isSome k ms]

theorem Members.hasKey_set_self (k : String) (v : Json) (ms : Members) :
    Members.hasKey k (Members.set k v ms) = true := by
  rw [Members.hasKey_eq_isSome, Members.lookup_set_self]
  rfl

theorem Members.hasKey_set_ne {k k2 : String} (v : Json) (h : k2 ≠ k) (ms : Members) :
    Members.hasKey k2 (Members.set k v ms) = Members.hasKey k2 ms := by
  rw [Members.hasKey_eq_isSome, Members.hasKey_eq_isSome, Members.lookup_set_ne v h]

theorem Members.hasKey_set_of_hasKey {k k2 : String} (v : Json) (ms : Members)
    (h : Members.hasKey k2 ms = true) : Members.hasKey k2 (Members.set k v ms) = true := by
  by_cases hk : k2 = k
  · subst hk
    exact Members.hasKey_set_self _ _ _
  · rw [Members.hasKey_set_ne v hk, h]

theorem Members.set_set (k : String) (v w : Json) :
    ∀ ms : Members, Members.set k w (Members.set k v ms) = Members.set k w ms
  | .nil => by simp [Members.set]
  | .cons l u ms => by
    by_cases h : l = k
    · simp [Members.set, h]
    · simp [Members.set, h, Members.set_set k v w ms]

theorem Members.wf_cons {k : String} {v : Json} {ms : Members} :
    Members.wf (.cons k v ms) = true ↔
      Members.hasKey k ms = false ∧ Json.wf v = true ∧ Members.wf ms = true := by
  simp [Members.wf, and_assoc]

theorem Members.wf_set (k : String) (v : Json) (hv : Json.wf v = true) :
    ∀ ms : Members, Members.wf ms = true → Members.wf (Members.set k v ms) = true
  | .nil, _ => by simp [Members.set, Members.wf, Members.hasKey, hv]
  | .cons l u ms, h => by
    obtain ⟨h1, h2, h3⟩ := Members.wf_cons.mp h
    by_cases hl : l = k
    · simp only [Members.set, hl, if_true]
      exact Members.wf_cons.mpr ⟨hl ▸ h1, hv, h3⟩
    · simp only [Members.set, hl, if_false]
      refine Members.wf_cons.mpr ⟨?_, h2, Members.wf_set k v hv ms h3⟩
      rw [Members.hasKey_set_ne v hl, h1]

theorem Json.wf_obj (ms : Members) : Json.wf (.obj ms) = Members.wf ms := by
  simp [Json.wf]

/-! ## The merge diff -/

/-- Nothing is recorded as deleted when `b` has every key of the members. -/
theorem deletedLoop_of_keys (b : Members) :
    ∀ (a into : Members), (∀ k, Members.hasKey k a = true → Members.hasKey k b = true) →
      deletedLoop b a into = into
  | .nil, _, _ => rfl
  | .cons key v rest, into, h => by
    have hk : Members.hasKey key b = true := h key (by simp [Members.hasKey])
    have hr : ∀ k, Members.hasKey k rest = true → Members.hasKey k b = true := by
      intro k hk2
      apply h
      by_cases hkk : key = k
      · simp [Members.hasKey, hkk]
      · simpa [Members.hasKey, hkk] using hk2
    simp only [deletedLoop, hk, if_true]
    exact deletedLoop_of_keys b rest into hr

/-- The first loop handles its members one after the other. -/
theorem getDiffLoop_cons (a : Members) (key : String) (bv : Json) (rest into : Members) :
    getDiffLoop a (.cons key bv rest) into =
      getDiffLoop a rest (getDiffLoop a (.cons key bv .nil) into) := by
  cases hl : Members.lookup key a with
  | none => simp [getDiffLoop, hl]
  | some av =>
    cases av <;> cases bv <;> simp [getDiffLoop, hl]

/-- A member whose value is the one `a` has under the same key adds nothing,
provided that value, when an object, has an empty difference with itself. -/
theorem getDiffLoop_single_same (a : Members) (key : String) (bv : Json) (into : Members)
    (hl : Members.lookup key a = some bv)
    (hobj : ∀ bt, bv = .obj bt → getDiff bt bt = .nil) :
    getDiffLoop a (.cons key bv .nil) into = into := by
  cases bv with
  | obj bt =>
    have := hobj bt rfl
    simp only [getDiff] at this
    simp [getDiffLoop, hl, this]
  | null => simp [getDiffLoop, hl]
  | bool b => simp [getDiffLoop, hl]
  | num n => simp [getDiffLoop, hl]
  | str s => simp [getDiffLoop, hl]
  | arr xs => simp [getDiffLoop, hl]

/-- Lookups of the members after the first one, names being different. -/
theorem Members.lookup_tail {key : String} {bv : Json} {rest : Members}
    (hk : Members.hasKey key rest = false) {k : String} {v : Json}
    (h : Members.lookup k rest = some v) :
    Members.lookup k (.cons key bv rest) = some v := by
  have hne : key ≠ k := by
    intro he
    subst he
    rw [Members.hasKey_eq_isSome, h] at hk
    cases hk
  simp [Members.lookup, hne, h]

/-- Members that `a` holds with the same values add nothing to the difference. -/
theorem getDiffLoop_same :
    ∀ b : Members, Members.wf b = true → ∀ a into : Members,
      (∀ k v, Members.lookup k b = some v → Members.lookup k a = some v) →
      getDiffLoop a b into = into
  | .nil, _, _, _, _ => rfl
  | .cons key (.obj bt) rest, hwf, a, into, h => by
    obtain ⟨h1, h2, h3⟩ := Members.wf_cons.mp hwf
    rw [Json.wf_obj] at h2
    rw [getDiffLoop_cons]
    have hself : getDiff bt bt = .nil := by
      simp only [getDiff]
      rw [getDiffLoop_same bt h2 bt .nil (fun _ _ hh => hh)]
      exact deletedLoop_of_keys bt bt .nil (fun _ hh => hh)
    rw [getDiffLoop_single_same a key (.obj bt) into
      (h key _ (by simp [Members.lookup])) (fun bt2 he => by cases he; exact hself)]
    exact getDiffLoop_same rest h3 a into (fun k v hh => h k v (Members.lookup_tail h1 hh))
  | .cons key .null rest, hwf, a, into, h => by
    obtain ⟨h1, _, h3⟩ := Members.wf_cons.mp hwf
    rw [getDiffLoop_cons, getDiffLoop_single_same a key _ into
      (h key _ (by simp [Members.lookup])) (fun _ he => by cases he)]
    exact getDiffLoop_same rest h3 a into (fun k v hh => h k v (Members.lookup_tail h1 hh))
  | .cons key (.bool _) rest, hwf, a, into, h => by
    obtain ⟨h1, _, h3⟩ := Members.wf_cons.mp hwf
    rw [getDiffLoop_cons, getDiffLoop_single_same a key _ into
      (h key _ (by simp [Members.lookup])) (fun _ he => by cases he)]
    exact getDiffLoop_same rest h3 a into (fun k v hh => h k v (Members.lookup_tail h1 hh))
  | .cons key (.num _) rest, hwf, a, into, h => by
    obtain ⟨h1, _, h3⟩ := Members.wf_cons.mp hwf
    rw [getDiffLoop_cons, getDiffLoop_single_same a key _ into
      (h key _ (by simp [Members.lookup])) (fun _ he => by cases he)]
    exact getDiffLoop_same rest h3 a into (fun k v hh => h k v (Members.lookup_tail h1 hh))
  | .cons key (.str _) rest, hwf, a, into, h => by
    obtain ⟨h1, _, h3⟩ := Members.wf_cons.mp hwf
    rw [getDiffLoop_cons, getDiffLoop_single_same a key _ into
      (h key _ (by simp [Members.lookup])) (fun _ he => by cases he)]
    exact getDiffLoop_same rest h3 a into (fun k v hh => h k v (Members.lookup_tail h1 hh))
  | .cons key (.arr _) rest, hwf, a, into, h => by
    obtain ⟨h1, _, h3⟩ := Members.wf_cons.mp hwf
    rw [getDiffLoop_cons, getDiffLoop_single_same a key _ into
      (h key _ (by simp [Members.lookup])) (fun _ he => by cases he)]
    exact getDiffLoop_same rest h3 a into (fun k v hh => h k v (Members.lookup_tail h1 hh))

/-- A well-formed object has an empty difference with itself. -/
theorem getDiff_self (a : Members) (h : Members.wf a = true) : getDiff a a = .nil := by
  simp only [getDiff]
  rw [getDiffLoop_same a h a .nil (fun _ _ hh => hh)]
  exact deletedLoop_of_keys a a .nil (fun _ hh => hh)

/-- Storing one value into members that `a` holds with the same values: only the
stored member is compared. -/
theorem getDiffLoop_set (a : Members) (k : String) (vb : Json) :
    ∀ b : Members, Members.wf b = true → ∀ into : Members,
      (∀ k2 v, Members.lookup k2 b = some v → Members.lookup k2 a = some v) →
      Members.lookup k a = Members.lookup k b →
      getDiffLoop a (Members.set k vb b) into = getDiffLoop a (.cons k vb .nil) into
  | .nil, _, _, _, _ => rfl
  | .cons l w rest, hwf, into, h, hk => by
    obtain ⟨h1, h2, h3⟩ := Members.wf_cons.mp hwf
    have hrest : ∀ k2 v, Members.lookup k2 rest = some v → Members.lookup k2 a = some v :=
      fun k2 v hh => h k2 v (Members.lookup_tail h1 hh)
    by_cases hl : l = k
    · subst hl
      simp only [Members.set, if_true]
      rw [getDiffLoop_cons]
      exact getDiffLoop_same rest h3 a _ hrest
    · simp only [Members.set, hl, if_false]
      rw [getDiffLoop_cons, getDiffLoop_single_same a l w into
        (h l w (by simp [Members.lookup]))
        (fun bt he => by subst he; rw [Json.wf_obj] at h2; exact getDiff_self bt h2)]
      refine getDiffLoop_set a k vb rest h3 into hrest ?_
      rw [hk]
      simp [Members.lookup, hl]

/-- The difference between a well-formed object and the same object with one
value stored is the difference on that member. -/
theorem getDiff_set (a : Members) (h : Members.wf a = true) (k : String) (vb : Json) :
    getDiff a (Members.set k vb a) = getDiffLoop a (.cons k vb .nil) .nil := by
  simp only [getDiff]
  rw [getDiffLoop_set a k vb a h .nil (fun _ _ hh => hh) rfl]
  exact deletedLoop_of_keys _ a _ (fun k2 hh => Members.hasKey_set_of_hasKey vb a hh)

/-- Storing an object where `a` holds an object: the difference is the one of
the two objects under the key, or nothing when that is empty. -/
theorem getDiff_set_obj (a : Members) (h : Members.wf a = true) (k : String)
    (ao bt : Members) (hl : Members.lookup k a = some (.obj ao)) :
    getDiff a (Members.set k (.obj bt) a) =
      if getDiff ao bt = .nil then .nil else .cons k (.obj (getDiff ao bt)) .nil := by
  rw [getDiff_set a h]
  by_cases hd : getDiff ao bt = .nil
  · have hd2 := hd
    simp only [getDiff] at hd2
    simp [getDiffLoop, hl, hd, hd2]
  · have hd2 := hd
    simp only [getDiff] at hd2
    simp [getDiffLoop, hl, hd, hd2, Members.set, getDiff]

/-- Storing a string: the difference is that member, or nothing when `a` holds
the same string under the key. -/
theorem getDiff_set_str (a : Members) (h : Members.wf a = true) (k s : String) :
    getDiff a (Members.set k (.str s) a) =
      if Members.lookup k a = some (.str s) then .nil else .cons k (.str s) .nil := by
  rw [getDiff_set a h]
  cases hl : Members.lookup k a with
  | none => simp [getDiffLoop, hl, Members.set]
  | some av =>
    by_cases he : av = .str s
    · subst he
      simp [getDiffLoop, hl]
    · cases av <;> simp_all [getDiffLoop, Members.set]

/-! ## Applying a merge patch -/

theorem Json.getPath_cons (j : Json) (k : String) (p : List String) :
    Json.getPath j (k :: p) =
      (Members.lookup k j.members).bind (fun v => Json.getPath v p) := by
  cases j <;> simp [Json.getPath, Json.members, Members.lookup]
  split <;> simp_all

/-- A patch of one member that is not `null` stores the merged value. -/
theorem Json.mergePatch_single (target : Json) (k : String) (v : Json) (hv : v ≠ .null) :
    Json.mergePatch target (.obj (.cons k v .nil)) =
      .obj (Members.set k (Json.mergePatch ((Members.lookup k target.members).getD .null) v)
        target.members) := by
  cases v <;> first | exact absurd rfl hv | simp [Json.mergePatch, Members.mergeInto]

/-- A patch of one member leaves what lies under any other member. -/
theorem Json.getPath_mergePatch_ne (target : Json) (k : String) (v : Json) (hv : v ≠ .null)
    (k2 : String) (p : List String) (h : k2 ≠ k) :
    Json.getPath (Json.mergePatch target (.obj (.cons k v .nil))) (k2 :: p) =
      Json.getPath target (k2 :: p) := by
  rw [Json.mergePatch_single target k v hv, Json.getPath_cons, Json.getPath_cons]
  simp only [Json.members]
  rw [Members.lookup_set_ne _ h]

/-- Under the member of the patch lies the merge of what was there. -/
theorem Json.getPath_mergePatch_self (target : Json) (k : String) (v : Json) (hv : v ≠ .null)
    (p : List String) :
    Json.getPath (Json.mergePatch target (.obj (.cons k v .nil))) (k :: p) =
      Json.getPath (Json.mergePatch ((Members.lookup k target.members).getD .null) v) p := by
  rw [Json.mergePatch_single target k v hv, Json.getPath_cons]
  simp only [Json.members]
  rw [Members.lookup_set_self]
  rfl

/-- Below a member, a missing member reads as `null` does. -/
theorem Json.getPath_cons_cons (target : Json) (k k2 : String) (p : List String) :
    Json.getPath target (k :: k2 :: p) =
      Json.getPath ((Members.lookup k target.members).getD .null) (k2 :: p) := by
  rw [Json.getPath_cons]
  cases Members.lookup k target.members with
  | none => simp [Json.getPath]
  | some v => rfl

/-- Applying the patch that holds one string under three member names leaves
every path that neither leads to that string nor passes through it. -/
theorem mergePatch_frame (s q m now : String) (stored : Json) (p : List String)
    (h1 : ¬ p <+: [s, q, m]) (h2 : ¬ [s, q, m] <+: p) :
    Json.getPath (Json.mergePatch stored
        (.obj (.cons s (.obj (.cons q (.obj (.cons m (.str now) .nil)) .nil)) .nil))) p =
      Json.getPath stored p := by
  match p with
  | [] => exact absurd List.nil_prefix h1
  | k1 :: r1 =>
    by_cases e1 : k1 = s
    · subst e1
      match r1 with
      | [] => exact absurd (by simp) h1
      | k2 :: r2 =>
        rw [Json.getPath_mergePatch_self _ _ _ (by simp), Json.getPath_cons_cons]
        by_cases e2 : k2 = q
        · subst e2
          match r2 with
          | [] => exact absurd (by simp) h1
          | k3 :: r3 =>
            rw [Json.getPath_mergePatch_self _ _ _ (by simp), Json.getPath_cons_cons]
            by_cases e3 : k3 = m
            · subst e3
              exact absurd (by simp) h2
            · exact Json.getPath_mergePatch_ne _ _ _ (by simp) _ _ e3
        · exact Json.getPath_mergePatch_ne _ _ _ (by simp) _ _ e2
    · exact Json.getPath_mergePatch_ne _ _ _ (by simp) _ _ e1

/-- Applying that patch stores the string at the end of the three names. -/
theorem mergePatch_marker (s q m now : String) (stored : Json) :
    Json.getPath (Json.mergePatch stored
        (.obj (.cons s (.obj (.cons q (.obj (.cons m (.str now) .nil)) .nil)) .nil)))
      [s, q, m] = some (.str now) := by
  rw [Json.getPath_mergePatch_self _ _ _ (by simp),
    Json.getPath_mergePatch_self _ _ _ (by simp),
    Json.getPath_mergePatch_self _ _ _ (by simp)]
  simp [Json.mergePatch, Json.getPath]

/-- The patch that holds one string under three member names has no value
off the path to that string. -/
theorem getPath_markerOnly (s q m now : String) (p : List String) (v : Json)
    (h : Json.getPath
      (.obj (.cons s (.obj (.cons q (.obj (.cons m (.str now) .nil)) .nil)) .nil)) p = some v) :
    p <+: [s, q, m] := by
  match p with
  | [] => exact List.nil_prefix
  | [k1] =>
    by_cases e1 : s = k1
    · simp [e1]
    · simp [Json.getPath, Members.lookup, e1] at h
  | [k1, k2] =>
    by_cases e1 : s = k1
    · by_cases e2 : q = k2
      · simp [e1, e2]
      · simp [Json.getPath, Members.lookup, e1, e2] at h
    · simp [Json.getPath, Members.lookup, e1] at h
  | k1 :: k2 :: k3 :: r =>
    by_cases e1 : s = k1
    · by_cases e2 : q = k2
      · by_cases e3 : m = k3
        · cases r with
          | nil => simp [e1, e2, e3]
          | cons k4 r4 => simp [Json.getPath, Members.lookup, e1, e2, e3] at h
        · simp [Json.getPath, Members.lookup, e1, e2, e3] at h
      · simp [Json.getPath, Members.lookup, e1, e2] at h
    · simp [Json.getPath, Members.lookup, e1] at h

/-! ## Maps -/

theorem Entries.find_set_self (k v : String) (es : Entries) :
    Entries.find k (Entries.set k v es) = some v := by
  induction es with
  | nil => simp [Entries.set, Entries.find]
  | cons e es ih =>
    obtain ⟨l, w⟩ := e
    by_cases h : l = k
    · simp [Entries.set, Entries.find, h]
    · simp [Entries.set, Entries.find, h, ih]

theorem Entries.find_set_ne {k k2 : String} (v : String) (es : Entries) (h : k2 ≠ k) :
    Entries.find k2 (Entries.set k v es) = Entries.find k2 es := by
  induction es with
  | nil => simp [Entries.set, Entries.find, Ne.symm h]
  | cons e es ih =>
    obtain ⟨l, w⟩ := e
    by_cases hl : l = k
    · subst hl
      simp [Entries.set, Entries.find, Ne.symm h]
    · by_cases hl2 : l = k2
      · subst hl2
        simp [Entries.set, Entries.find, hl]
      · simp [Entries.set, Entries.find, hl, hl2, ih]

theorem GoMap.index_set_self (k v : String) (es : Entries) :
    GoMap.index (some (Entries.set k v es)) k = v := by
  simp [GoMap.index, Entries.find_set_self]

theorem GoMap.index_set_ne {k k2 : String} (v : String) (es : Entries) (h : k2 ≠ k) :
    GoMap.index (some (Entries.set k v es)) k2 = GoMap.index (some es) k2 := by
  simp [GoMap.index, Entries.find_set_ne v es h]

theorem encodeEntries_set (k v : String) (es : Entries) :
    encodeEntries (Entries.set k v es) = Members.set k (.str v) (encodeEntries es) := by
  induction es with
  | nil => rfl
  | cons e es ih =>
    obtain ⟨l, w⟩ := e
    by_cases h : l = k
    · simp [Entries.set, encodeEntries, Members.set, h]
    · simp [Entries.set, encodeEntries, Members.set, h, ih]

theorem lookup_encodeEntries (k : String) (es : Entries) :
    Members.lookup k (encodeEntries es) = (Entries.find k es).map Json.str := by
  induction es with
  | nil => rfl
  | cons e es ih =>
    obtain ⟨l, w⟩ := e
    by_cases h : l = k
    · simp [Entries.find, encodeEntries, Members.lookup, h]
    · simp [Entries.find, encodeEntries, Members.lookup, h, ih]

theorem find_eq_none_of_not_mem (k : String) (es : Entries) (h : k ∉ Entries.keys es) :
    Entries.find k es = none := by
  induction es with
  | nil => rfl
  | cons e es ih =>
    obtain ⟨l, w⟩ := e
    simp only [Entries.keys, List.map_cons, List.mem_cons, not_or] at h
    have hne : l ≠ k := fun he => h.1 he.symm
    simp only [Entries.find, hne, if_false]
    exact ih h.2

/-- A map, each key of which occurs once, is marshalled to a well-formed object. -/
theorem wf_encodeEntries (es : Entries) (h : (Entries.keys es).Nodup) :
    Members.wf (encodeEntries es) = true := by
  induction es with
  | nil => rfl
  | cons e es ih =>
    obtain ⟨l, w⟩ := e
    simp only [Entries.keys, List.map_cons, List.nodup_cons] at h
    refine Members.wf_cons.mpr ⟨?_, rfl, ih h.2⟩
    rw [Members.hasKey_eq_isSome, lookup_encodeEntries, find_eq_none_of_not_mem l es h.1]
    rfl

/-! ## The marker patch -/

/-- On a nil parameter map the assignment panics. -/
theorem patch_nil (E : Env) (task : Pgtask) (ns : String)
    (h : task.Spec.Parameters = none) : PatchpgtaskDeleteDataStatus E task ns = none := by
  simp [PatchpgtaskDeleteDataStatus, GoMap.assign, h]

/-- On a present parameter map the marker is set, the patch is computed and
the request is sent; its answer is the result. -/
theorem patch_some (E : Env) (task : Pgtask) (ns : String) (es : Entries)
    (h : task.Spec.Parameters = some es) :
    ∃ body, CreateMergePatch (E.layout.Marshal task)
        (E.layout.Marshal (markedTask E task es)) = .ok body ∧
      PatchpgtaskDeleteDataStatus E task ns =
        some ⟨markedTask E task es,
          [.logPatch body, .patch ns task.Spec.Name body (E.Patch ns task.Spec.Name body)],
          E.Patch ns task.Spec.Name body⟩ := by
  refine ⟨.obj (getDiff _ _), rfl, ?_⟩
  simp [PatchpgtaskDeleteDataStatus, GoMap.assign, h, CreateMergePatch, PgtaskLayout.Marshal,
    markedTask]

/-- The patch computed for a task marshalled without repeated member names:
empty when the marker already holds the timestamp, the marker alone
otherwise. -/
theorem markerPatch_eq (E : Env) (task : Pgtask) (es : Entries)
    (hm : task.Spec.Parameters = some es) (hes : (Entries.keys es).Nodup)
    (htop : Members.wf (E.layout.top task.ObjectMeta) = true)
    (hspec : Members.wf (E.layout.spec task.Spec.Name task.Spec.StorageSpec) = true) :
    markerPatch E task es =
      if Entries.find E.config.LABEL_DELETE_DATA_STARTED es = some E.now then .obj .nil
      else markerOnlyPatch E := by
  have h3 := wf_encodeEntries es hes
  have h2 : Members.wf (Members.set E.layout.parametersTag (.obj (encodeEntries es))
      (E.layout.spec task.Spec.Name task.Spec.StorageSpec)) = true :=
    Members.wf_set _ _ (by rw [Json.wf_obj]; exact h3) _ hspec
  have h1 : Members.wf (E.layout.members task) = true := by
    simp only [PgtaskLayout.members, hm, marshalMap]
    exact Members.wf_set _ _ (by rw [Json.wf_obj]; exact h2) _ htop
  have hnew : E.layout.members (markedTask E task es) =
      Members.set E.layout.specTag
        (.obj (Members.set E.layout.parametersTag
          (.obj (Members.set E.config.LABEL_DELETE_DATA_STARTED (.str E.now) (encodeEntries es)))
          (Members.set E.layout.parametersTag (.obj (encodeEntries es))
            (E.layout.spec task.Spec.Name task.Spec.StorageSpec))))
        (E.layout.members task) := by
    simp only [PgtaskLayout.members, markedTask, marshalMap, hm, encodeEntries_set,
      Members.set_set]
  have hd3 := getDiff_set_str (encodeEntries es) h3 E.config.LABEL_DELETE_DATA_STARTED E.now
  have hd2 := getDiff_set_obj _ h2 E.layout.parametersTag (encodeEntries es)
    (Members.set E.config.LABEL_DELETE_DATA_STARTED (.str E.now) (encodeEntries es))
    (Members.lookup_set_self _ _ _)
  have hd1 := getDiff_set_obj _ h1 E.layout.specTag
    (Members.set E.layout.parametersTag (.obj (encodeEntries es))
      (E.layout.spec task.Spec.Name task.Spec.StorageSpec))
    (Members.set E.layout.parametersTag
      (.obj (Members.set E.config.LABEL_DELETE_DATA_STARTED (.str E.now) (encodeEntries es)))
      (Members.set E.layout.parametersTag (.obj (encodeEntries es))
        (E.layout.spec task.Spec.Name task.Spec.StorageSpec)))
    (by simp only [PgtaskLayout.members, hm, marshalMap]; exact Members.lookup_set_self _ _ _)
  simp only [markerPatch, hnew, hd1, hd2, hd3, lookup_encodeEntries, markerOnlyPatch]
  cases hf : Entries.find E.config.LABEL_DELETE_DATA_STARTED es with
  | none => simp
  | some w =>
    by_cases hw : w = E.now
    · simp [hw]
    · simp [hw]

/-- The outcome of the marker function on a present parameter map. -/
theorem patch_some_eq (E : Env) (task : Pgtask) (ns : String) (es : Entries)
    (h : task.Spec.Parameters = some es) :
    PatchpgtaskDeleteDataStatus E task ns =
      some ⟨markedTask E task es,
        [.logPatch (markerPatch E task es),
          .patch ns task.Spec.Name (markerPatch E task es)
            (E.Patch ns task.Spec.Name (markerPatch E task es))],
        E.Patch ns task.Spec.Name (markerPatch E task es)⟩ := by
  simp [PatchpgtaskDeleteDataStatus, GoMap.assign, h, CreateMergePatch, PgtaskLayout.Marshal,
    markedTask, markerPatch]

/-- The marker function reads nothing of the cluster lookup. -/
theorem patch_indep_lookup (E : Env) (g : String → String → Except String Pgcluster)
    (task : Pgtask) (ns : String) :
    PatchpgtaskDeleteDataStatus { E with Getpgcluster := g } task ns =
      PatchpgtaskDeleteDataStatus E task ns := rfl

/-- The calls made by the marker function: none, or the patch request. -/
theorem patch_trace (E : Env) (task : Pgtask) (ns : String) (p : PatchOutcome)
    (h : PatchpgtaskDeleteDataStatus E task ns = some p) :
    ∃ body, p.trace = [.logPatch body, .patch ns task.Spec.Name body p.err] := by
  cases hm : task.Spec.Parameters with
  | none => rw [patch_nil E task ns hm] at h; cases h
  | some es =>
    obtain ⟨body, _, hb⟩ := patch_some E task ns es hm
    rw [hb] at h
    cases h
    exact ⟨body, rfl⟩

/-- Whenever a run builds the job fields, the parameter map is present, the
cluster name read after the marker is not empty, the lookup answered, and the
fields are read from the marked task, the cluster and the configuration. -/
theorem jobFields_built (E : Env) (ns : String) (task : Pgtask)
    (f : rmdatajobTemplateFields) (h : (RemoveData E ns task).jobFields = some f) :
    ∃ es cluster, task.Spec.Parameters = some es ∧
      (markedTask E task es).Spec.Parameters.index E.config.LABEL_PG_CLUSTER ≠ "" ∧
      E.Getpgcluster ((markedTask E task es).Spec.Parameters.index E.config.LABEL_PG_CLUSTER) ns
        = .ok cluster ∧
      f =
        { JobName := (markedTask E task es).Spec.Parameters.index E.config.LABEL_PG_CLUSTER
            ++ "-rmdata-" ++ E.RandStringBytesRmndr 4
          Name := task.Spec.Name
          ClusterName := (markedTask E task es).Spec.Parameters.index E.config.LABEL_PG_CLUSTER
          ClusterPGHAScope :=
            (markedTask E task es).Spec.Parameters.index E.config.LABEL_PGHA_SCOPE
          ReplicaName :=
            (markedTask E task es).Spec.Parameters.index E.config.LABEL_REPLICA_NAME
          RemoveData := (markedTask E task es).Spec.Parameters.index E.config.LABEL_DELETE_DATA
          RemoveBackup :=
            (markedTask E task es).Spec.Parameters.index E.config.LABEL_DELETE_BACKUPS
          IsReplica := (markedTask E task es).Spec.Parameters.index E.config.LABEL_IS_REPLICA
          IsBackup := (markedTask E task es).Spec.Parameters.index E.config.LABEL_IS_BACKUP
          PGOImagePrefix := GetValueOrDefault cluster.Spec.PGOImagePrefix E.Pgo.PGOImagePrefix
          PGOImageTag := E.Pgo.PGOImageTag
          SecurityContext :=
            E.GetPodSecurityContext (E.GetSupplementalGroups task.Spec.StorageSpec) } := by
  cases hm : task.Spec.Parameters with
  | none => simp [RemoveData, patch_nil E task ns hm] at h
  | some es =>
    obtain ⟨body, _, hb⟩ := patch_some E task ns es hm
    refine ⟨es, ?_⟩
    simp only [RemoveData, hb] at h
    split at h
    · simp at h
    · split at h
      · simp at h
      · rename_i hne
        split at h
        · simp at h
        · rename_i cluster hc
          refine ⟨cluster, rfl, hne, hc, ?_⟩
          split at h
          · simpa [markedTask] using h.symm
          · split at h
            · simpa [markedTask] using h.symm
            · split at h
              · simpa [markedTask] using h.symm
              · split at h
                · simpa [markedTask] using h.symm
                · simpa [markedTask] using h.symm

/-- The caller's task after a run: marked when the parameter map is present. -/
theorem RemoveData_task (E : Env) (ns : String) (task : Pgtask) (es : Entries)
    (hm : task.Spec.Parameters = some es) :
    (RemoveData E ns task).task = markedTask E task es := by
  obtain ⟨body, _, hb⟩ := patch_some E task ns es hm
  simp only [RemoveData, hb]
  repeat' split
  all_goals rfl

/-- Strings that agree after a common beginning are equal. -/
theorem append_left_cancel_string (a s t : String) (h : a ++ s = a ++ t) : s = t := by
  have hd := congrArg String.data h
  simp only [String.data_append] at hd
  exact String.ext (List.append_cancel_left hd)

/-- Publishing an event sends no patch, no lookup and no job. -/
theorem publish_counts (E : Env) (c i u ns : String) :
    markerWrites (publishDeleteCluster E c i u ns) = 0 ∧
      lookups (publishDeleteCluster E c i u ns) = 0 ∧
      jobSubmissions (publishDeleteCluster E c i u ns) = 0 ∧
      requests (publishDeleteCluster E c i u ns) = [] := by
  simp only [publishDeleteCluster]
  split <;> exact ⟨rfl, rfl, rfl, rfl⟩

theorem requests_publish (E : Env) (c i u ns : String) :
    requests (publishDeleteCluster E c i u ns) = [] := (publish_counts E c i u ns).2.2.2

theorem requests_append (a b : List Effect) :
    requests (a ++ b) = requests a ++ requests b := List.filter_append a b

theorem markerWritten_append (a b : List Effect) :
    markerWritten (a ++ b) = (markerWritten a || markerWritten b) := List.any_append

theorem jobSubmitted_append (a b : List Effect) :
    jobSubmitted (a ++ b) = (jobSubmitted a || jobSubmitted b) := List.any_append

theorem markerWrites_append (a b : List Effect) :
    markerWrites (a ++ b) = markerWrites a + markerWrites b := List.countP_append _ a b

theorem lookups_append (a b : List Effect) :
    lookups (a ++ b) = lookups a + lookups b := List.countP_append _ a b

theorem jobSubmissions_append (a b : List Effect) :
    jobSubmissions (a ++ b) = jobSubmissions a + jobSubmissions b := List.countP_append _ a b

/-- Only the requests of a trace act on the stored document. -/
theorem storedAfter_requests (tr : List Effect) :
    ∀ stored, storedAfter stored tr = storedAfter stored (requests tr) := by
  induction tr with
  | nil => intro stored; rfl
  | cons e tr ih =>
    intro stored
    cases e with
    | patch ns name body err =>
      cases err with
      | none =>
        simp only [requests, List.filter, Effect.isPatch, Bool.true_or, storedAfter]
        exact ih _
      | some x =>
        simp only [requests, List.filter, Effect.isPatch, Bool.true_or, storedAfter]
        exact ih _
    | createJob ns job err =>
      simp only [requests, List.filter, Effect.isPatch, Effect.isCreateJob, Bool.or_true,
        storedAfter]
      exact ih _
    | getpgcluster a b c =>
      simp only [requests, List.filter, Effect.isPatch, Effect.isCreateJob, Bool.or_self,
        storedAfter]
      exact ih _
    | stdout a =>
      simp only [requests, List.filter, Effect.isPatch, Effect.isCreateJob, Bool.or_self,
        storedAfter]
      exact ih _
    | publish a b =>
      simp only [requests, List.filter, Effect.isPatch, Effect.isCreateJob, Bool.or_self,
        storedAfter]
      exact ih _
    | logError a =>
      simp only [requests, List.filter, Effect.isPatch, Effect.isCreateJob, Bool.or_self,
        storedAfter]
      exact ih _
    | logDebug a =>
      simp only [requests, List.filter, Effect.isPatch, Effect.isCreateJob, Bool.or_self,
        storedAfter]
      exact ih _
    | logPatch a =>
      simp only [requests, List.filter, Effect.isPatch, Effect.isCreateJob, Bool.or_self,
        storedAfter]
      exact ih _

/-- The requests of a run on a present parameter map, by the statement at which
it ends: the marker patch first, then the job creation if the run gets there. -/
theorem run_requests (E : Env) (ns : String) (task : Pgtask) (es : Entries)
    (hm : task.Spec.Parameters = some es) :
    (RemoveData E ns task).exit ≠ .panicNilMap ∧
      ((RemoveData E ns task).exit = .markerFailed →
        ∃ e, requests (RemoveData E ns task).trace =
          [.patch ns task.Spec.Name (markerPatch E task es) (some e)]) ∧
      ((RemoveData E ns task).exit = .emptyClusterName ∨
          (RemoveData E ns task).exit = .lookupFailed ∨
          (RemoveData E ns task).exit = .templateFailed ∨
          (RemoveData E ns task).exit = .unmarshalFailed ∨
          (RemoveData E ns task).exit = .panicNoContainer →
        requests (RemoveData E ns task).trace =
          [.patch ns task.Spec.Name (markerPatch E task es) none]) ∧
      ((RemoveData E ns task).exit = .createFailed →
        ∃ job err, requests (RemoveData E ns task).trace =
          [.patch ns task.Spec.Name (markerPatch E task es) none,
            .createJob ns job (some err)]) ∧
      ((RemoveData E ns task).exit = .done →
        ∃ job, requests (RemoveData E ns task).trace =
          [.patch ns task.Spec.Name (markerPatch E task es) none,
            .createJob ns job none]) := by
  have hb := patch_some_eq E task ns es hm
  simp only [RemoveData, hb]
  repeat' split
  all_goals
    simp only [requests_append, requests_publish]
  all_goals simp_all [requests, Effect.isPatch, Effect.isCreateJob]

/-! ## Claims -/

/-- C1: when the marker write of `PatchpgtaskDeleteDataStatus` returns an error,
`RemoveData` stops there: it submits no job, looks no cluster up, publishes no
event and builds no job fields, and the run is the same whatever the cluster
lookup would have answered. -/
theorem C1_marker_error_submits_nothing (E : Env) (ns : String) (task : Pgtask)
    (p : PatchOutcome) (e : String)
    (hp : PatchpgtaskDeleteDataStatus E task ns = some p) (he : p.err = some e) :
    jobSubmissions (RemoveData E ns task).trace = 0 ∧
      lookups (RemoveData E ns task).trace = 0 ∧
      publishes (RemoveData E ns task).trace = 0 ∧
      (RemoveData E ns task).jobFields = none ∧
      (RemoveData E ns task).exit = .markerFailed ∧
      ∀ g, RemoveData { E with Getpgcluster := g } ns task = RemoveData E ns task := by
  obtain ⟨body, hb⟩ := patch_trace E task ns p hp
  have key : ∀ E2 : Env, PatchpgtaskDeleteDataStatus E2 task ns = some p →
      RemoveData E2 ns task =
        ⟨p.task, p.trace ++ [.logError ("could not set delete data started marker for task "
          ++ p.task.Spec.Name ++ " cluster "
          ++ p.task.Spec.Parameters.index E2.config.LABEL_PG_CLUSTER)], none, .markerFailed⟩ := by
    intro E2 h2
    simp [RemoveData, h2, he]
  rw [key E hp, hb]
  refine ⟨rfl, rfl, rfl, rfl, rfl, ?_⟩
  intro g
  rw [key _ ((patch_indep_lookup E g task ns).trans hp), hb]

/-- C1 at the sample task: the patch is refused while the cluster exists. -/
theorem C1_marker_error_submits_nothing_witness :
    PatchpgtaskDeleteDataStatus sampleEnvPatchRefused sampleTask "pgo"
        = some sampleRefusedOutcome ∧
      sampleRefusedOutcome.err = some "conflict" ∧
      jobSubmissions (RemoveData sampleEnvPatchRefused "pgo" sampleTask).trace = 0 :=
  ⟨by decide, rfl,
    (C1_marker_error_submits_nothing sampleEnvPatchRefused "pgo" sampleTask
      sampleRefusedOutcome "conflict" (by decide) rfl).1⟩

/-- C2, as stated, fails: the sample task names no cluster, and the run sends
the marker patch, which is accepted, and sets the marker in the caller's
task before it stops at the check of the cluster name. -/
theorem C2_marker_written_before_validation :
    sampleTaskNoCluster.Spec.Parameters.index sampleEnv.config.LABEL_PG_CLUSTER = "" ∧
      (RemoveData sampleEnv "pgo" sampleTaskNoCluster).exit = .emptyClusterName ∧
      markerWrites (RemoveData sampleEnv "pgo" sampleTaskNoCluster).trace = 1 ∧
      markerWritten (RemoveData sampleEnv "pgo" sampleTaskNoCluster).trace = true ∧
      (RemoveData sampleEnv "pgo" sampleTaskNoCluster).task.Spec.Parameters.index
        sampleEnv.config.LABEL_DELETE_DATA_STARTED = sampleEnv.now := by
  decide

/-- C2, amended: for a task whose cluster-name parameter is empty, `RemoveData`
submits no job, looks no cluster up, publishes no event and builds no job
fields; the marker patch comes before the check of the cluster name, so with
a present parameter map the marker patch is the one request of the run, the
marker is written exactly when the run stops at that check, and the caller's
task carries the marker, every other parameter keeping its value. -/
theorem C2_empty_cluster_name_no_job (E : Env) (ns : String) (task : Pgtask)
    (hk : E.config.LABEL_PG_CLUSTER ≠ E.config.LABEL_DELETE_DATA_STARTED)
    (hc : task.Spec.Parameters.index E.config.LABEL_PG_CLUSTER = "") :
    jobSubmissions (RemoveData E ns task).trace = 0 ∧
      lookups (RemoveData E ns task).trace = 0 ∧
      publishes (RemoveData E ns task).trace = 0 ∧
      (RemoveData E ns task).jobFields = none ∧
      (task.Spec.Parameters ≠ none →
        markerWrites (RemoveData E ns task).trace = 1 ∧
          ((RemoveData E ns task).exit = .emptyClusterName ∨
            (RemoveData E ns task).exit = .markerFailed) ∧
          (markerWritten (RemoveData E ns task).trace = true ↔
            (RemoveData E ns task).exit = .emptyClusterName)) ∧
      (∀ es, task.Spec.Parameters = some es →
        requests (RemoveData E ns task).trace =
            [.patch ns task.Spec.Name (markerPatch E task es)
              (E.Patch ns task.Spec.Name (markerPatch E task es))] ∧
          (RemoveData E ns task).task = markedTask E task es ∧
          (RemoveData E ns task).task.Spec.Parameters.index
            E.config.LABEL_DELETE_DATA_STARTED = E.now ∧
          ∀ k, k ≠ E.config.LABEL_DELETE_DATA_STARTED →
            (RemoveData E ns task).task.Spec.Parameters.index k
              = task.Spec.Parameters.index k) := by
  cases hm : task.Spec.Parameters with
  | none => simp [RemoveData, patch_nil E task ns hm, jobSubmissions, lookups, publishes]
  | some es =>
    have hb := patch_some_eq E task ns es hm
    have hc2 : (markedTask E task es).Spec.Parameters.index E.config.LABEL_PG_CLUSTER = "" := by
      rw [← hc, hm]
      exact GoMap.index_set_ne _ _ hk
    have hself : (markedTask E task es).Spec.Parameters.index
        E.config.LABEL_DELETE_DATA_STARTED = E.now := GoMap.index_set_self _ _ _
    have hother : ∀ k, k ≠ E.config.LABEL_DELETE_DATA_STARTED →
        (markedTask E task es).Spec.Parameters.index k = GoMap.index (some es) k :=
      fun k hkk => GoMap.index_set_ne _ _ hkk
    simp only [RemoveData, hb, hc2]
    cases hP : E.Patch ns task.Spec.Name (markerPatch E task es) <;>
      simp [markerWritten, markerWrites, jobSubmissions, lookups, publishes, Effect.isPatchOk,
        Effect.isCreateJob, Effect.isPatch, Effect.isLookup, Effect.isPublish, requests,
        hself] <;>
      exact ⟨hP.symm, hother⟩

/-- C2, amended, at the sample task that names no cluster. -/
theorem C2_empty_cluster_name_no_job_witness :
    sampleEnv.config.LABEL_PG_CLUSTER ≠ sampleEnv.config.LABEL_DELETE_DATA_STARTED ∧
      sampleTaskNoCluster.Spec.Parameters.index sampleEnv.config.LABEL_PG_CLUSTER = "" ∧
      jobSubmissions (RemoveData sampleEnv "pgo" sampleTaskNoCluster).trace = 0 ∧
      (RemoveData sampleEnv "pgo" sampleTaskNoCluster).task.Spec.Parameters.index
        sampleEnv.config.LABEL_DELETE_DATA_STARTED = sampleEnv.now :=
  ⟨by decide, by decide,
    (C2_empty_cluster_name_no_job sampleEnv "pgo" sampleTaskNoCluster (by decide) (by decide)).1,
    ((C2_empty_cluster_name_no_job sampleEnv "pgo" sampleTaskNoCluster (by decide)
      (by decide)).2.2.2.2.2 _ rfl).2.2.1⟩

/-- C3, as stated, fails: the cluster name is not empty, the marker patch is
accepted and the cluster is found, but the job template fails to execute
and no job is submitted. -/
theorem C3_template_failure_no_submission :
    sampleTask.Spec.Parameters.index sampleEnvTemplateFails.config.LABEL_PG_CLUSTER
        = "mycluster" ∧
      sampleEnvTemplateFails.Getpgcluster "mycluster" "pgo" = .ok sampleCluster ∧
      markerWritten (RemoveData sampleEnvTemplateFails "pgo" sampleTask).trace = true ∧
      lookups (RemoveData sampleEnvTemplateFails "pgo" sampleTask).trace = 1 ∧
      (RemoveData sampleEnvTemplateFails "pgo" sampleTask).exit = .templateFailed ∧
      jobSubmissions (RemoveData sampleEnvTemplateFails "pgo" sampleTask).trace = 0 := by
  refine ⟨by decide, rfl, ?_, ?_, ?_, ?_⟩ <;> decide

/-- C3, amended: for a task with a non-empty cluster name whose marker patch is
accepted and whose cluster is found, a run of `RemoveData` sends exactly one
marker patch, makes one lookup, builds the job fields and submits at most
one job: exactly one when the template executes on the fields, its output
unmarshals into a job and that job has a container, and none otherwise. -/
theorem C3_one_marker_one_job (E : Env) (ns : String) (task : Pgtask) (cluster : Pgcluster)
    (hk : E.config.LABEL_PG_CLUSTER ≠ E.config.LABEL_DELETE_DATA_STARTED)
    (hc : task.Spec.Parameters.index E.config.LABEL_PG_CLUSTER ≠ "")
    (hw : markerWritten (RemoveData E ns task).trace = true)
    (hg : E.Getpgcluster (task.Spec.Parameters.index E.config.LABEL_PG_CLUSTER) ns
      = .ok cluster) :
    markerWrites (RemoveData E ns task).trace = 1 ∧
      lookups (RemoveData E ns task).trace = 1 ∧
      jobSubmissions (RemoveData E ns task).trace ≤ 1 ∧
      ∃ f, (RemoveData E ns task).jobFields = some f ∧
        (jobSubmissions (RemoveData E ns task).trace = 1 ↔
          ∃ doc job c cs, E.RmdatajobTemplate f = .ok doc ∧ E.Unmarshal doc = .ok job ∧
            job.Containers = c :: cs) := by
  cases hm : task.Spec.Parameters with
  | none => simp [RemoveData, patch_nil E task ns hm, markerWritten] at hw
  | some es =>
    obtain ⟨body, _, hb⟩ := patch_some E task ns es hm
    have hc2 : (markedTask E task es).Spec.Parameters.index E.config.LABEL_PG_CLUSTER =
        task.Spec.Parameters.index E.config.LABEL_PG_CLUSTER := by
      rw [hm]
      exact GoMap.index_set_ne _ _ hk
    simp only [RemoveData, hb, hc2, hg, if_neg hc] at hw ⊢
    cases hP : E.Patch ns task.Spec.Name body with
    | some e => simp [hP, markerWritten, Effect.isPatchOk] at hw
    | none =>
      simp only []
      repeat' split
      all_goals
        simp only [markerWrites_append, lookups_append, jobSubmissions_append,
          publish_counts]
      all_goals simp_all [markerWrites, jobSubmissions, lookups, Effect.isCreateJob,
        Effect.isPatch, Effect.isLookup]

/-- C3, amended, at the sample task in the sample environment. -/
theorem C3_one_marker_one_job_witness :
    sampleEnv.config.LABEL_PG_CLUSTER ≠ sampleEnv.config.LABEL_DELETE_DATA_STARTED ∧
      sampleTask.Spec.Parameters.index sampleEnv.config.LABEL_PG_CLUSTER ≠ "" ∧
      markerWritten (RemoveData sampleEnv "pgo" sampleTask).trace = true ∧
      markerWrites (RemoveData sampleEnv "pgo" sampleTask).trace = 1 :=
  ⟨by decide, by decide, by decide,
    (C3_one_marker_one_job sampleEnv "pgo" sampleTask sampleCluster (by decide) (by decide)
      (by decide) rfl).1⟩

/-- C4, as stated, fails: in the sample environment without any cluster the run
stops at the lookup; its one request is the marker patch, which was accepted,
so the stored task holds the marker and so does the caller's task, and no
job is submitted. -/
theorem C4_marked_without_job :
    (RemoveData sampleEnvNoCluster "pgo" sampleTask).exit = .lookupFailed ∧
      markerWritten (RemoveData sampleEnvNoCluster "pgo" sampleTask).trace = true ∧
      jobSubmissions (RemoveData sampleEnvNoCluster "pgo" sampleTask).trace = 0 ∧
      requests (RemoveData sampleEnvNoCluster "pgo" sampleTask).trace =
        [.patch "pgo" "t1" sampleMarkerPatch none] ∧
      Json.getPath
        (storedAfter (sampleEnvNoCluster.layout.Marshal sampleTask)
          (RemoveData sampleEnvNoCluster "pgo" sampleTask).trace)
        (markerPath sampleEnvNoCluster) = some (.str sampleEnvNoCluster.now) ∧
      (RemoveData sampleEnvNoCluster "pgo" sampleTask).task.Spec.Parameters.index
        sampleEnvNoCluster.config.LABEL_DELETE_DATA_STARTED = sampleEnvNoCluster.now := by
  decide

/-- C4, amended: the requests of a run are, in program order, the marker patch
and then, if the run gets there, the job creation, so a job is submitted only
after the marker was written.  A run that stops at the marker write has its
patch refused and sends no job.  A run that stops at any later step has sent
one accepted marker patch and no other patch, nothing being rolled back,
and has no job accepted: the caller's task carries the marker, and the
stored task, after the accepted patches of the run, holds the marker set to
the timestamp.  The run reaches its end exactly when the job was submitted. -/
theorem C4_marker_stays_without_job (E : Env) (ns : String) (task : Pgtask) :
    (jobSubmitted (RemoveData E ns task).trace = true →
        markerWritten (RemoveData E ns task).trace = true) ∧
      ((RemoveData E ns task).exit = .panicNilMap ∨
          (RemoveData E ns task).exit = .markerFailed →
        markerWritten (RemoveData E ns task).trace = false ∧
          jobSubmissions (RemoveData E ns task).trace = 0) ∧
      ((RemoveData E ns task).exit = .emptyClusterName ∨
          (RemoveData E ns task).exit = .lookupFailed ∨
          (RemoveData E ns task).exit = .templateFailed ∨
          (RemoveData E ns task).exit = .unmarshalFailed ∨
          (RemoveData E ns task).exit = .panicNoContainer ∨
          (RemoveData E ns task).exit = .createFailed →
        markerWritten (RemoveData E ns task).trace = true ∧
          jobSubmitted (RemoveData E ns task).trace = false) ∧
      ((RemoveData E ns task).exit = .done ↔
        jobSubmitted (RemoveData E ns task).trace = true) ∧
      (task.Spec.Parameters = none →
        (RemoveData E ns task).exit = .panicNilMap ∧ (RemoveData E ns task).trace = []) ∧
      (∀ es, task.Spec.Parameters = some es →
        ((RemoveData E ns task).exit = .markerFailed →
          ∃ e, requests (RemoveData E ns task).trace =
            [.patch ns task.Spec.Name (markerPatch E task es) (some e)]) ∧
        ((RemoveData E ns task).exit = .emptyClusterName ∨
            (RemoveData E ns task).exit = .lookupFailed ∨
            (RemoveData E ns task).exit = .templateFailed ∨
            (RemoveData E ns task).exit = .unmarshalFailed ∨
            (RemoveData E ns task).exit = .panicNoContainer →
          requests (RemoveData E ns task).trace =
            [.patch ns task.Spec.Name (markerPatch E task es) none]) ∧
        ((RemoveData E ns task).exit = .createFailed →
          ∃ job err, requests (RemoveData E ns task).trace =
            [.patch ns task.Spec.Name (markerPatch E task es) none,
              .createJob ns job (some err)]) ∧
        ((RemoveData E ns task).exit = .done →
          ∃ job, requests (RemoveData E ns task).trace =
            [.patch ns task.Spec.Name (markerPatch E task es) none,
              .createJob ns job none]) ∧
        (RemoveData E ns task).task.Spec.Parameters.index
          E.config.LABEL_DELETE_DATA_STARTED = E.now ∧
        ((Entries.keys es).Nodup →
          Members.wf (E.layout.top task.ObjectMeta) = true →
          Members.wf (E.layout.spec task.Spec.Name task.Spec.StorageSpec) = true →
          Entries.find E.config.LABEL_DELETE_DATA_STARTED es ≠ some E.now →
          (RemoveData E ns task).exit ≠ .markerFailed →
          ∀ stored, Json.getPath (storedAfter stored (RemoveData E ns task).trace)
            (markerPath E) = some (.str E.now))) := by
  have hfirst :
      (jobSubmitted (RemoveData E ns task).trace = true →
          markerWritten (RemoveData E ns task).trace = true) ∧
        ((RemoveData E ns task).exit = .panicNilMap ∨
            (RemoveData E ns task).exit = .markerFailed →
          markerWritten (RemoveData E ns task).trace = false ∧
            jobSubmissions (RemoveData E ns task).trace = 0) ∧
        ((RemoveData E ns task).exit = .emptyClusterName ∨
            (RemoveData E ns task).exit = .lookupFailed ∨
            (RemoveData E ns task).exit = .templateFailed ∨
            (RemoveData E ns task).exit = .unmarshalFailed ∨
            (RemoveData E ns task).exit = .panicNoContainer ∨
            (RemoveData E ns task).exit = .createFailed →
          markerWritten (RemoveData E ns task).trace = true ∧
            jobSubmitted (RemoveData E ns task).trace = false) ∧
        ((RemoveData E ns task).exit = .done ↔
          jobSubmitted (RemoveData E ns task).trace = true) := by
    cases hm : task.Spec.Parameters with
    | none =>
      simp [RemoveData, patch_nil E task ns hm, markerWritten, jobSubmitted, jobSubmissions]
    | some es =>
      obtain ⟨body, _, hb⟩ := patch_some E task ns es hm
      simp only [RemoveData, hb]
      repeat' split
      all_goals simp_all [markerWritten, jobSubmitted, jobSubmissions, Effect.isPatchOk,
        Effect.isCreateJobOk, Effect.isCreateJob, publishDeleteCluster]
  obtain ⟨c1, c2, c3, c4⟩ := hfirst
  refine ⟨c1, c2, c3, c4, ?_, ?_⟩
  · intro hm
    simp [RemoveData, patch_nil E task ns hm]
  · intro es hm
    obtain ⟨r0, r1, r2, r3, r4⟩ := run_requests E ns task es hm
    refine ⟨r1, r2, r3, r4, ?_, ?_⟩
    · rw [RemoveData_task E ns task es hm]
      exact GoMap.index_set_self _ _ _
    · intro hes htop hspec hne hx stored
      have hmp : markerPatch E task es = markerOnlyPatch E := by
        rw [markerPatch_eq E task es hm hes htop hspec, if_neg hne]
      have hone : storedAfter stored
          [.patch ns task.Spec.Name (markerPatch E task es) none] =
          Json.mergePatch stored (markerOnlyPatch E) := by
        simp [storedAfter, hmp]
      have htwo : ∀ job err, storedAfter stored
          [.patch ns task.Spec.Name (markerPatch E task es) none, .createJob ns job err] =
          Json.mergePatch stored (markerOnlyPatch E) := by
        intro job err
        simp [storedAfter, hmp]
      have hgoal : Json.getPath (Json.mergePatch stored (markerOnlyPatch E)) (markerPath E) =
          some (.str E.now) := mergePatch_marker _ _ _ _ stored
      rw [storedAfter_requests]
      cases hex : (RemoveData E ns task).exit with
      | panicNilMap => exact absurd hex r0
      | markerFailed => exact absurd hex hx
      | emptyClusterName => rw [r2 (Or.inl hex), hone]; exact hgoal
      | lookupFailed => rw [r2 (Or.inr (Or.inl hex)), hone]; exact hgoal
      | templateFailed => rw [r2 (Or.inr (Or.inr (Or.inl hex))), hone]; exact hgoal
      | unmarshalFailed =>
        rw [r2 (Or.inr (Or.inr (Or.inr (Or.inl hex)))), hone]; exact hgoal
      | panicNoContainer =>
        rw [r2 (Or.inr (Or.inr (Or.inr (Or.inr hex)))), hone]; exact hgoal
      | createFailed =>
        obtain ⟨job, err, hr⟩ := r3 hex
        rw [hr, htwo]; exact hgoal
      | done =>
        obtain ⟨job, hr⟩ := r4 hex
        rw [hr, htwo]; exact hgoal

/-- C4, amended, at the sample run that stops at the cluster lookup. -/
theorem C4_marker_stays_without_job_witness :
    (RemoveData sampleEnvNoCluster "pgo" sampleTask).exit = .lookupFailed ∧
      markerWritten (RemoveData sampleEnvNoCluster "pgo" sampleTask).trace = true ∧
      jobSubmitted (RemoveData sampleEnvNoCluster "pgo" sampleTask).trace = false ∧
      requests (RemoveData sampleEnvNoCluster "pgo" sampleTask).trace =
        [.patch "pgo" "t1" (markerPatch sampleEnvNoCluster sampleTask sampleEntries) none] ∧
      ∀ stored, Json.getPath
        (storedAfter stored (RemoveData sampleEnvNoCluster "pgo" sampleTask).trace)
        (markerPath sampleEnvNoCluster) = some (.str sampleEnvNoCluster.now) :=
  ⟨by decide,
    ((C4_marker_stays_without_job sampleEnvNoCluster "pgo" sampleTask).2.2.1
      (Or.inr (Or.inl (by decide)))).1,
    ((C4_marker_stays_without_job sampleEnvNoCluster "pgo" sampleTask).2.2.1
      (Or.inr (Or.inl (by decide)))).2,
    ((C4_marker_stays_without_job sampleEnvNoCluster "pgo" sampleTask).2.2.2.2.2
      sampleEntries rfl).2.1 (Or.inr (Or.inl (by decide))),
    ((C4_marker_stays_without_job sampleEnvNoCluster "pgo" sampleTask).2.2.2.2.2
      sampleEntries rfl).2.2.2.2.2 (by decide) (by decide) (by decide) (by decide)
      (by decide)⟩

/-- C5: in a run of `RemoveData` whose marker write and job submission succeed,
nothing depends on the answer of the event publisher: the run reaches its
end, and the caller's task, the job fields and the requests sent (marker
patch and job creation, with their answers) are the same under any two
publishers; the traces differ only in what `publishDeleteCluster` appends
at the end, which for a failing publisher ends on the logged error. -/
theorem C5_publish_failure_only_logged (E : Env) (ns : String) (task : Pgtask)
    (P1 P2 : EventDeleteClusterFormat → Option String)
    (hw : markerWritten (RemoveData { E with Publish := P1 } ns task).trace = true)
    (hj : jobSubmitted (RemoveData { E with Publish := P1 } ns task).trace = true) :
    (RemoveData { E with Publish := P1 } ns task).exit = .done ∧
      (RemoveData { E with Publish := P2 } ns task).exit = .done ∧
      (RemoveData { E with Publish := P2 } ns task).task =
        (RemoveData { E with Publish := P1 } ns task).task ∧
      (RemoveData { E with Publish := P2 } ns task).jobFields =
        (RemoveData { E with Publish := P1 } ns task).jobFields ∧
      requests (RemoveData { E with Publish := P2 } ns task).trace =
        requests (RemoveData { E with Publish := P1 } ns task).trace ∧
      markerWritten (RemoveData { E with Publish := P2 } ns task).trace = true ∧
      jobSubmitted (RemoveData { E with Publish := P2 } ns task).trace = true ∧
      (∃ pre c i u,
        (RemoveData { E with Publish := P1 } ns task).trace =
          pre ++ publishDeleteCluster { E with Publish := P1 } c i u ns ∧
        (RemoveData { E with Publish := P2 } ns task).trace =
          pre ++ publishDeleteCluster { E with Publish := P2 } c i u ns) ∧
      ∀ e, (∀ ev, P2 ev = some e) →
        (RemoveData { E with Publish := P2 } ns task).trace.getLast? = some (.logError e) := by
  cases hm : task.Spec.Parameters with
  | none =>
    have h0 := patch_nil { E with Publish := P1 } task ns hm
    simp [RemoveData, h0, markerWritten] at hw
  | some es =>
    have hb := patch_some_eq E task ns es hm
    have hb1 : PatchpgtaskDeleteDataStatus { E with Publish := P1 } task ns = _ := hb
    have hb2 : PatchpgtaskDeleteDataStatus { E with Publish := P2 } task ns = _ := hb
    simp only [RemoveData, hb1, hb2] at hw hj ⊢
    cases hP : E.Patch ns task.Spec.Name (markerPatch E task es) with
    | some e => simp [hP, markerWritten, Effect.isPatchOk] at hw
    | none =>
      simp only [hP] at hj ⊢
      split at hj
      · simp [jobSubmitted, Effect.isCreateJobOk] at hj
      · split at hj
        · simp [jobSubmitted, Effect.isCreateJobOk] at hj
        · split at hj
          · simp [jobSubmitted, Effect.isCreateJobOk] at hj
          · split at hj
            · split at hj <;> simp [jobSubmitted, Effect.isCreateJobOk] at hj
            · split at hj
              · split at hj <;> simp [jobSubmitted, Effect.isCreateJobOk] at hj
              · split at hj
                · split at hj <;> simp [jobSubmitted, Effect.isCreateJobOk] at hj
                · rename_i hne _ cl hcl _ doc hdoc _ job hjob _ c cs hcs _ j hcj
                  clear hw hb hb1 hb2 hj
                  simp only [if_neg hne, hcl, hdoc, hjob, hcs, hcj]
                  refine ⟨trivial, trivial, trivial, trivial, ?_, ?_, ?_,
                    ⟨_, _, _, _, rfl, rfl⟩, ?_⟩
                  · simp only [requests_append, requests_publish]
                  · rw [markerWritten_append, markerWritten_append]
                    cases E.CRUNCHY_DEBUG <;> simp [markerWritten, Effect.isPatchOk]
                  · rw [jobSubmitted_append, jobSubmitted_append]
                    simp [jobSubmitted, Effect.isCreateJobOk]
                  · intro e he
                    simp [publishDeleteCluster, he]

/-- C5 at the sample task: a publisher that answers and one that fails. -/
theorem C5_publish_failure_only_logged_witness :
    markerWritten (RemoveData { sampleEnv with Publish := fun _ => none } "pgo"
        sampleTask).trace = true ∧
      jobSubmitted (RemoveData { sampleEnv with Publish := fun _ => none } "pgo"
        sampleTask).trace = true ∧
      (RemoveData { sampleEnv with Publish := fun _ => some "connection refused" } "pgo"
        sampleTask).exit = .done :=
  ⟨by decide, by decide,
    (C5_publish_failure_only_logged sampleEnv "pgo" sampleTask (fun _ => none)
      (fun _ => some "connection refused") (by decide) (by decide)).2.1⟩

/-- C6: the four behaviour flags of the job fields built by `RemoveData` are
the task's delete-data, delete-backups, is-replica and is-backup parameters,
unchanged (the empty string for a parameter the task does not have): they are
the values of the task as the run leaves it, and, the marker key being none of
the four flag keys, the values of the task as it was received. -/
theorem C6_flags_verbatim (E : Env) (ns : String) (task : Pgtask)
    (f : rmdatajobTemplateFields) (hf : (RemoveData E ns task).jobFields = some f)
    (h1 : E.config.LABEL_DELETE_DATA ≠ E.config.LABEL_DELETE_DATA_STARTED)
    (h2 : E.config.LABEL_DELETE_BACKUPS ≠ E.config.LABEL_DELETE_DATA_STARTED)
    (h3 : E.config.LABEL_IS_REPLICA ≠ E.config.LABEL_DELETE_DATA_STARTED)
    (h4 : E.config.LABEL_IS_BACKUP ≠ E.config.LABEL_DELETE_DATA_STARTED) :
    (f.RemoveData = task.Spec.Parameters.index E.config.LABEL_DELETE_DATA ∧
      f.RemoveBackup = task.Spec.Parameters.index E.config.LABEL_DELETE_BACKUPS ∧
      f.IsReplica = task.Spec.Parameters.index E.config.LABEL_IS_REPLICA ∧
      f.IsBackup = task.Spec.Parameters.index E.config.LABEL_IS_BACKUP) ∧
    (f.RemoveData =
        (RemoveData E ns task).task.Spec.Parameters.index E.config.LABEL_DELETE_DATA ∧
      f.RemoveBackup =
        (RemoveData E ns task).task.Spec.Parameters.index E.config.LABEL_DELETE_BACKUPS ∧
      f.IsReplica =
        (RemoveData E ns task).task.Spec.Parameters.index E.config.LABEL_IS_REPLICA ∧
      f.IsBackup =
        (RemoveData E ns task).task.Spec.Parameters.index E.config.LABEL_IS_BACKUP) := by
  obtain ⟨es, cluster, hm, -, -, rfl⟩ := jobFields_built E ns task f hf
  have ht := RemoveData_task E ns task es hm
  refine ⟨?_, ?_⟩
  · simp only [markedTask, hm]
    exact ⟨GoMap.index_set_ne _ _ h1, GoMap.index_set_ne _ _ h2, GoMap.index_set_ne _ _ h3,
      GoMap.index_set_ne _ _ h4⟩
  · rw [ht]
    exact ⟨rfl, rfl, rfl, rfl⟩

/-- C6 at the sample task: delete-data is `true`, delete-backups is `false`,
the two other flags are absent. -/
theorem C6_flags_verbatim_witness :
    (RemoveData sampleEnv "pgo" sampleTask).jobFields = some sampleFields ∧
      sampleFields.RemoveData = sampleTask.Spec.Parameters.index "delete-data" ∧
      sampleFields.RemoveBackup = sampleTask.Spec.Parameters.index "delete-backups" ∧
      sampleFields.IsReplica = sampleTask.Spec.Parameters.index "is-replica" ∧
      sampleFields.IsBackup = sampleTask.Spec.Parameters.index "is-backup" :=
  ⟨by decide,
    (C6_flags_verbatim sampleEnv "pgo" sampleTask sampleFields (by decide) (by decide)
      (by decide) (by decide) (by decide)).1⟩

/-- C7: for a task marshalled without repeated member names, the merge patch that
`PatchpgtaskDeleteDataStatus` computes and sends is empty when the marker
already holds the timestamp, and otherwise holds the marker, set to the
timestamp, and nothing else; every value of the patch lies on the path to the
marker; and applied to any stored document it sets the marker and leaves
every path that neither leads to the marker nor passes through it. -/
theorem C7_patch_mentions_only_marker (E : Env) (ns : String) (task : Pgtask) (es : Entries)
    (hm : task.Spec.Parameters = some es) (hes : (Entries.keys es).Nodup)
    (htop : Members.wf (E.layout.top task.ObjectMeta) = true)
    (hspec : Members.wf (E.layout.spec task.Spec.Name task.Spec.StorageSpec) = true) :
    CreateMergePatch (E.layout.Marshal task) (E.layout.Marshal (markedTask E task es))
        = .ok (markerPatch E task es) ∧
      (∃ p, PatchpgtaskDeleteDataStatus E task ns = some p ∧
        p.trace = [.logPatch (markerPatch E task es),
          .patch ns task.Spec.Name (markerPatch E task es) p.err]) ∧
      markerPatch E task es =
        (if Entries.find E.config.LABEL_DELETE_DATA_STARTED es = some E.now then .obj .nil
          else markerOnlyPatch E) ∧
      (∀ p v, Json.getPath (markerPatch E task es) p = some v → p <+: markerPath E) ∧
      (Entries.find E.config.LABEL_DELETE_DATA_STARTED es ≠ some E.now →
        Json.getPath (markerPatch E task es) (markerPath E) = some (.str E.now) ∧
        ∀ stored, Json.getPath (Json.mergePatch stored (markerPatch E task es)) (markerPath E)
          = some (.str E.now)) ∧
      ∀ stored p, ¬ p <+: markerPath E → ¬ markerPath E <+: p →
        Json.getPath (Json.mergePatch stored (markerPatch E task es)) p
          = Json.getPath stored p := by
  have heq := markerPatch_eq E task es hm hes htop hspec
  refine ⟨rfl, ⟨_, patch_some_eq E task ns es hm, rfl⟩, heq, ?_, ?_, ?_⟩
  · intro p v hv
    rw [heq] at hv
    split at hv
    · cases p with
      | nil => exact List.nil_prefix
      | cons k r => simp [Json.getPath, Members.lookup] at hv
    · exact getPath_markerOnly _ _ _ _ p v hv
  · intro hne
    rw [heq, if_neg hne]
    refine ⟨?_, fun stored => mergePatch_marker _ _ _ _ stored⟩
    simp [markerOnlyPatch, markerPath, Json.getPath, Members.lookup]
  · intro stored p h1 h2
    rw [heq]
    split
    · cases p with
      | nil => exact absurd List.nil_prefix h1
      | cons k r =>
        rw [Json.getPath_cons, Json.getPath_cons]
        simp [Json.mergePatch, Members.mergeInto, Json.members]
    · exact mergePatch_frame _ _ _ _ stored p h1 h2

/-- C7 at the sample task: the patch holds the marker alone. -/
theorem C7_patch_mentions_only_marker_witness :
    sampleTask.Spec.Parameters = some sampleEntries ∧
      (Entries.keys sampleEntries).Nodup ∧
      Members.wf (sampleEnv.layout.top sampleTask.ObjectMeta) = true ∧
      Members.wf (sampleEnv.layout.spec sampleTask.Spec.Name sampleTask.Spec.StorageSpec)
        = true ∧
      markerPatch sampleEnv sampleTask sampleEntries = sampleMarkerPatch :=
  ⟨rfl, by decide, by decide, by decide,
    (C7_patch_mentions_only_marker sampleEnv "pgo" sampleTask sampleEntries rfl (by decide)
      (by decide) (by decide)).2.2.1.trans (by decide)⟩

/-- C8: for a task with a non-empty cluster name whose marker patch is accepted
and whose cluster is found, `RemoveData` builds the job fields, and the job
name in them is the cluster name followed by `-rmdata-` and by the random
suffix; with a suffix of four characters its length is that of the cluster
name plus 12; and two names built for the same cluster name are equal only
when their suffixes are equal. -/
theorem C8_job_name (E : Env) (ns : String) (task : Pgtask) (es : Entries)
    (cluster : Pgcluster)
    (hm : task.Spec.Parameters = some es)
    (hk : E.config.LABEL_PG_CLUSTER ≠ E.config.LABEL_DELETE_DATA_STARTED)
    (hc : task.Spec.Parameters.index E.config.LABEL_PG_CLUSTER ≠ "")
    (hP : E.Patch ns task.Spec.Name (markerPatch E task es) = none)
    (hg : E.Getpgcluster (task.Spec.Parameters.index E.config.LABEL_PG_CLUSTER) ns
      = .ok cluster)
    (hlen : (E.RandStringBytesRmndr 4).length = 4) :
    ∃ f, (RemoveData E ns task).jobFields = some f ∧
      f.ClusterName = task.Spec.Parameters.index E.config.LABEL_PG_CLUSTER ∧
      f.ClusterName ≠ "" ∧
      f.JobName = task.Spec.Parameters.index E.config.LABEL_PG_CLUSTER ++ "-rmdata-"
        ++ E.RandStringBytesRmndr 4 ∧
      f.JobName = f.ClusterName ++ "-rmdata-" ++ E.RandStringBytesRmndr 4 ∧
      f.JobName.length = f.ClusterName.length + 12 ∧
      ∀ (E2 : Env) (ns2 : String) (task2 : Pgtask) (f2 : rmdatajobTemplateFields),
        (RemoveData E2 ns2 task2).jobFields = some f2 → f2.ClusterName = f.ClusterName →
        f2.JobName = f.JobName → E2.RandStringBytesRmndr 4 = E.RandStringBytesRmndr 4 := by
  have hc2 : (markedTask E task es).Spec.Parameters.index E.config.LABEL_PG_CLUSTER =
      task.Spec.Parameters.index E.config.LABEL_PG_CLUSTER := by
    rw [hm]
    exact GoMap.index_set_ne _ _ hk
  have hex : ∃ f, (RemoveData E ns task).jobFields = some f := by
    have hb := patch_some_eq E task ns es hm
    simp only [RemoveData, hb, hP, hc2, hg, if_neg hc]
    repeat' split
    all_goals exact ⟨_, rfl⟩
  obtain ⟨f, hf⟩ := hex
  refine ⟨f, hf, ?_⟩
  obtain ⟨es1, cluster1, hm1, hne, -, rfl⟩ := jobFields_built E ns task f hf
  have hes : es1 = es := by
    rw [hm] at hm1
    exact (Option.some.inj hm1).symm
  subst hes
  refine ⟨hc2, hne, ?_, rfl, ?_, ?_⟩
  · simp only [hc2]
  · simp only [String.length_append, hlen]
    have h8 : "-rmdata-".length = 8 := by decide
    omega
  · intro E2 ns2 task2 f2 hf2 hcn hj
    obtain ⟨es2, cluster2, -, -, -, rfl⟩ := jobFields_built E2 ns2 task2 f2 hf2
    simp only at hcn hj
    rw [hcn, String.append_assoc, String.append_assoc] at hj
    exact append_left_cancel_string _ _ _ (append_left_cancel_string _ _ _ hj)

/-- C8 at the sample task: cluster `mycluster`, suffix `abcd`. -/
theorem C8_job_name_witness :
    sampleTask.Spec.Parameters = some sampleEntries ∧
      sampleEnv.config.LABEL_PG_CLUSTER ≠ sampleEnv.config.LABEL_DELETE_DATA_STARTED ∧
      sampleTask.Spec.Parameters.index sampleEnv.config.LABEL_PG_CLUSTER ≠ "" ∧
      sampleEnv.Patch "pgo" sampleTask.Spec.Name
        (markerPatch sampleEnv sampleTask sampleEntries) = none ∧
      sampleEnv.Getpgcluster
        (sampleTask.Spec.Parameters.index sampleEnv.config.LABEL_PG_CLUSTER) "pgo"
        = .ok sampleCluster ∧
      (sampleEnv.RandStringBytesRmndr 4).length = 4 ∧
      ∃ f, (RemoveData sampleEnv "pgo" sampleTask).jobFields = some f ∧
        f.JobName = "mycluster" ++ "-rmdata-" ++ "abcd" :=
  ⟨rfl, by decide, by decide, rfl, rfl, by decide,
    (C8_job_name sampleEnv "pgo" sampleTask sampleEntries sampleCluster rfl (by decide)
      (by decide) rfl rfl (by decide)).imp (fun _ h => ⟨h.1, h.2.2.2.1⟩)⟩

/-- C9, as stated, fails: the sample task declares the supplemental group 1001
and its cluster the group 2002; the security context of the job fields is not
the one resolved from the cluster's groups. -/
theorem C9_security_context_not_from_cluster :
    sampleEnv.Getpgcluster "mycluster" "pgo" = .ok sampleCluster ∧
      ∃ f, (RemoveData sampleEnv "pgo" sampleTask).jobFields = some f ∧
        f.ClusterName = "mycluster" ∧
        f.SecurityContext ≠ sampleEnv.GetPodSecurityContext
          (sampleEnv.GetSupplementalGroups sampleCluster.Spec.StorageSpec) := by
  refine ⟨rfl, _, rfl, ?_, ?_⟩ <;> decide

/-- C9, amended: the security context of the job fields built by `RemoveData` is
the security-context function applied to the supplemental groups of the
task's own storage spec; the cluster descriptor is not read for it. -/
theorem C9_security_context_from_task (E : Env) (ns : String) (task : Pgtask)
    (f : rmdatajobTemplateFields) (hf : (RemoveData E ns task).jobFields = some f) :
    f.SecurityContext =
      E.GetPodSecurityContext (E.GetSupplementalGroups task.Spec.StorageSpec) := by
  obtain ⟨es, cluster, -, -, -, rfl⟩ := jobFields_built E ns task f hf
  rfl

/-- C9, amended, at the sample task, whose storage spec declares the group 1001. -/
theorem C9_security_context_from_task_witness :
    (RemoveData sampleEnv "pgo" sampleTask).jobFields = some sampleFields ∧
      sampleFields.SecurityContext =
        sampleEnv.GetPodSecurityContext
          (sampleEnv.GetSupplementalGroups sampleTask.Spec.StorageSpec) :=
  ⟨by decide, C9_security_context_from_task sampleEnv "pgo" sampleTask sampleFields (by decide)⟩

/-- C10: on a task whose parameter map is present, `PatchpgtaskDeleteDataStatus`
returns, and the task object of the caller then holds the marker key set to
the timestamp while every other parameter key and every other field keeps
its value; the patch request is sent after that, and the task is the same
whatever the request answers.  `RemoveData` leaves the task so as well. -/
theorem C10_marker_set_in_callers_task (E : Env) (ns : String) (task : Pgtask)
    (es : Entries) (hm : task.Spec.Parameters = some es) :
    ∃ p, PatchpgtaskDeleteDataStatus E task ns = some p ∧
      p.task.Spec.Parameters.index E.config.LABEL_DELETE_DATA_STARTED = E.now ∧
      (∀ k, k ≠ E.config.LABEL_DELETE_DATA_STARTED →
        p.task.Spec.Parameters.index k = task.Spec.Parameters.index k) ∧
      p.task.ObjectMeta = task.ObjectMeta ∧
      p.task.Spec.Name = task.Spec.Name ∧
      p.task.Spec.StorageSpec = task.Spec.StorageSpec ∧
      (∃ body, p.trace = [.logPatch body, .patch ns task.Spec.Name body p.err]) ∧
      (∀ P, ∃ q, PatchpgtaskDeleteDataStatus { E with Patch := P } task ns = some q ∧
        q.task = p.task) ∧
      (RemoveData E ns task).task = p.task := by
  obtain ⟨body, _, hb⟩ := patch_some E task ns es hm
  refine ⟨_, hb, ?_, ?_, rfl, rfl, rfl, ⟨body, rfl⟩, ?_, RemoveData_task E ns task es hm⟩
  · exact GoMap.index_set_self _ _ _
  · intro k hk
    simp only [markedTask, hm]
    exact GoMap.index_set_ne _ _ hk
  · intro P
    obtain ⟨body2, _, hb2⟩ := patch_some { E with Patch := P } task ns es hm
    exact ⟨_, hb2, rfl⟩

/-- C10 at the sample task, with a patch request that is refused. -/
theorem C10_marker_set_in_callers_task_witness :
    sampleTask.Spec.Parameters = some sampleEntries ∧
      ∃ p, PatchpgtaskDeleteDataStatus sampleEnvPatchRefused sampleTask "pgo" = some p ∧
        p.task.Spec.Parameters.index sampleEnvPatchRefused.config.LABEL_DELETE_DATA_STARTED
          = sampleEnvPatchRefused.now :=
  ⟨rfl,
    (C10_marker_set_in_callers_task sampleEnvPatchRefused "pgo" sampleTask sampleEntries
      rfl).imp (fun _ h => ⟨h.1, h.2.1⟩)⟩

end Rmdata
